import Mathlib

/-!
Verification of the Fine Offset Electronics sensor decoders of
`src/rtl_433/devices/fineoffset.c` (frame location, variant classification,
integrity validation and field decoding), as a shallow embedding in Lean 4.

Bit rows are modelled as a length together with a bit-valued function
(bit 0 is the most significant bit of byte 0 of the row buffer, as in
`bitbuffer_t`).  Machine bytes are `Nat` values kept below 256 with explicit
`% 256` where the C code overflows. Scaled physical quantities (C `float` /
`double` expressions) are modelled as exact rationals: the embedding captures
the arithmetic expressions of the source, not binary32 rounding.

Helper routines used by `fineoffset.c` that live elsewhere in the repository
(`bitbuffer_search`, `bitbuffer_extract_bytes`, `crc8`, `add_bytes`,
`xor_bytes`) are modelled from the spec, as documented on each definition.
-/

set_option maxRecDepth 4000

/-- A decoded field value: string, integer (`DATA_INT`), or exact rational
standing for the C `float`/`double` expression (`DATA_DOUBLE`). -/
inductive FieldValue where
  | str (s : String)
  | int (z : Int)
  | rat (q : ℚ)
deriving DecidableEq

/-- A sensor record: the ordered field list built by `data_make`. -/
abbrev SensorData := List (String × FieldValue)

/-- Outcome of one decoder invocation: a record (the C callbacks return 1 after
`decoder_output_data`), or one of the abort/fail codes of `decoder.h`. -/
inductive DecodeResult where
  | record (fields : SensorData)
  | abortLength
  | abortEarly
  | failSanity
  | failMic
deriving DecidableEq

/-- The first row of a `bitbuffer_t`: a bit count and the bit at each index.
Bit `i` is bit `7 - i % 8` (MSB first) of buffer byte `i / 8`. -/
structure BitRow where
  len : Nat
  bit : Nat → Bool

/-- A bit row built from a byte buffer (MSB-first within each byte), as the
upstream demodulator delivers it. Bytes beyond the list read as zero. -/
def mkRow (bytes : List Nat) (n : Nat) : BitRow :=
  ⟨n, fun i => (bytes.getD (i / 8) 0).testBit (7 - i % 8)⟩

/-- Toggle one bit of a row (used to state single-bit corruption claims). -/
def flipBit (r : BitRow) (f : Nat) : BitRow :=
  ⟨r.len, fun i => if i = f then !(r.bit i) else r.bit i⟩

/-- The byte with MSB `a0` down to LSB `a7`. -/
def byteVal (a0 a1 a2 a3 a4 a5 a6 a7 : Bool) : Nat :=
  128 * a0.toNat + 64 * a1.toNat + 32 * a2.toNat + 16 * a3.toNat +
    8 * a4.toNat + 4 * a5.toNat + 2 * a6.toNat + a7.toNat

/-- The byte formed by row bits `pos .. pos+7` (MSB first). -/
def byteFromBits (r : BitRow) (pos : Nat) : Nat :=
  byteVal (r.bit pos) (r.bit (pos + 1)) (r.bit (pos + 2)) (r.bit (pos + 3))
    (r.bit (pos + 4)) (r.bit (pos + 5)) (r.bit (pos + 6)) (r.bit (pos + 7))

/-- Byte `k` of the row buffer (`bb[0][k]` in the C code). -/
def rowByte (r : BitRow) (k : Nat) : Nat := byteFromBits r (8 * k)

/-- Modelled from the spec: `bitbuffer_extract_bytes` (not under `src/`)
copies `8 * nB` bits starting at bit `off` of the row into a byte-aligned
frame; its FrameLocator contract is a pure read of the row. -/
def extractBytes (r : BitRow) (off nB : Nat) : List Nat :=
  (List.range nB).map fun j => byteFromBits r (off + 8 * j)

theorem byteVal_lt : ∀ a0 a1 a2 a3 a4 a5 a6 a7 : Bool,
    byteVal a0 a1 a2 a3 a4 a5 a6 a7 < 256 := by decide

theorem byteFromBits_lt (r : BitRow) (pos : Nat) : byteFromBits r pos < 256 :=
  byteVal_lt _ _ _ _ _ _ _ _

theorem extractBytes_length (r : BitRow) (off nB : Nat) :
    (extractBytes r off nB).length = nB := by
  simp [extractBytes]

theorem extractBytes_lt (r : BitRow) (off nB : Nat) :
    ∀ x ∈ extractBytes r off nB, x < 256 := by
  intro x hx
  simp only [extractBytes, List.mem_map] at hx
  obtain ⟨j, -, rfl⟩ := hx
  exact byteFromBits_lt r _

theorem flipBit_len (r : BitRow) (f : Nat) : (flipBit r f).len = r.len := rfl

theorem flipBit_bit_ne (r : BitRow) (f i : Nat) (h : i ≠ f) :
    (flipBit r f).bit i = r.bit i := by
  simp [flipBit, h]

theorem flipBit_bit_eq (r : BitRow) (f : Nat) :
    (flipBit r f).bit f = !(r.bit f) := by
  simp [flipBit]

/-- A byte not containing the flipped bit is unchanged. -/
theorem byteFromBits_flipBit_ne (r : BitRow) (f pos : Nat)
    (h : f < pos ∨ pos + 8 ≤ f) :
    byteFromBits (flipBit r f) pos = byteFromBits r pos := by
  unfold byteFromBits
  rw [flipBit_bit_ne r f pos (by omega), flipBit_bit_ne r f (pos + 1) (by omega),
    flipBit_bit_ne r f (pos + 2) (by omega), flipBit_bit_ne r f (pos + 3) (by omega),
    flipBit_bit_ne r f (pos + 4) (by omega), flipBit_bit_ne r f (pos + 5) (by omega),
    flipBit_bit_ne r f (pos + 6) (by omega), flipBit_bit_ne r f (pos + 7) (by omega)]

theorem byteVal_flip0 : ∀ a0 a1 a2 a3 a4 a5 a6 a7 : Bool,
    byteVal (!a0) a1 a2 a3 a4 a5 a6 a7 = byteVal a0 a1 a2 a3 a4 a5 a6 a7 ^^^ 128 := by decide

theorem byteVal_flip1 : ∀ a0 a1 a2 a3 a4 a5 a6 a7 : Bool,
    byteVal a0 (!a1) a2 a3 a4 a5 a6 a7 = byteVal a0 a1 a2 a3 a4 a5 a6 a7 ^^^ 64 := by decide

theorem byteVal_flip2 : ∀ a0 a1 a2 a3 a4 a5 a6 a7 : Bool,
    byteVal a0 a1 (!a2) a3 a4 a5 a6 a7 = byteVal a0 a1 a2 a3 a4 a5 a6 a7 ^^^ 32 := by decide

theorem byteVal_flip3 : ∀ a0 a1 a2 a3 a4 a5 a6 a7 : Bool,
    byteVal a0 a1 a2 (!a3) a4 a5 a6 a7 = byteVal a0 a1 a2 a3 a4 a5 a6 a7 ^^^ 16 := by decide

theorem byteVal_flip4 : ∀ a0 a1 a2 a3 a4 a5 a6 a7 : Bool,
    byteVal a0 a1 a2 a3 (!a4) a5 a6 a7 = byteVal a0 a1 a2 a3 a4 a5 a6 a7 ^^^ 8 := by decide

theorem byteVal_flip5 : ∀ a0 a1 a2 a3 a4 a5 a6 a7 : Bool,
    byteVal a0 a1 a2 a3 a4 (!a5) a6 a7 = byteVal a0 a1 a2 a3 a4 a5 a6 a7 ^^^ 4 := by decide

theorem byteVal_flip6 : ∀ a0 a1 a2 a3 a4 a5 a6 a7 : Bool,
    byteVal a0 a1 a2 a3 a4 a5 (!a6) a7 = byteVal a0 a1 a2 a3 a4 a5 a6 a7 ^^^ 2 := by decide

theorem byteVal_flip7 : ∀ a0 a1 a2 a3 a4 a5 a6 a7 : Bool,
    byteVal a0 a1 a2 a3 a4 a5 a6 (!a7) = byteVal a0 a1 a2 a3 a4 a5 a6 a7 ^^^ 1 := by decide

theorem byteFromBits_flip0 (r : BitRow) (pos : Nat) :
    byteFromBits (flipBit r pos) pos = byteFromBits r pos ^^^ 128 := by
  unfold byteFromBits
  rw [flipBit_bit_eq r pos, flipBit_bit_ne r pos (pos + 1) (by omega),
    flipBit_bit_ne r pos (pos + 2) (by omega), flipBit_bit_ne r pos (pos + 3) (by omega),
    flipBit_bit_ne r pos (pos + 4) (by omega), flipBit_bit_ne r pos (pos + 5) (by omega),
    flipBit_bit_ne r pos (pos + 6) (by omega), flipBit_bit_ne r pos (pos + 7) (by omega)]
  exact byteVal_flip0 _ _ _ _ _ _ _ _

theorem byteFromBits_flip1 (r : BitRow) (pos : Nat) :
    byteFromBits (flipBit r (pos + 1)) pos = byteFromBits r pos ^^^ 64 := by
  unfold byteFromBits
  rw [flipBit_bit_ne r (pos + 1) pos (by omega), flipBit_bit_eq r (pos + 1),
    flipBit_bit_ne r (pos + 1) (pos + 2) (by omega), flipBit_bit_ne r (pos + 1) (pos + 3) (by omega),
    flipBit_bit_ne r (pos + 1) (pos + 4) (by omega), flipBit_bit_ne r (pos + 1) (pos + 5) (by omega),
    flipBit_bit_ne r (pos + 1) (pos + 6) (by omega), flipBit_bit_ne r (pos + 1) (pos + 7) (by omega)]
  exact byteVal_flip1 _ _ _ _ _ _ _ _

theorem byteFromBits_flip2 (r : BitRow) (pos : Nat) :
    byteFromBits (flipBit r (pos + 2)) pos = byteFromBits r pos ^^^ 32 := by
  unfold byteFromBits
  rw [flipBit_bit_ne r (pos + 2) pos (by omega), flipBit_bit_ne r (pos + 2) (pos + 1) (by omega),
    flipBit_bit_eq r (pos + 2),
    flipBit_bit_ne r (pos + 2) (pos + 3) (by omega), flipBit_bit_ne r (pos + 2) (pos + 4) (by omega),
    flipBit_bit_ne r (pos + 2) (pos + 5) (by omega), flipBit_bit_ne r (pos + 2) (pos + 6) (by omega),
    flipBit_bit_ne r (pos + 2) (pos + 7) (by omega)]
  exact byteVal_flip2 _ _ _ _ _ _ _ _

theorem byteFromBits_flip3 (r : BitRow) (pos : Nat) :
    byteFromBits (flipBit r (pos + 3)) pos = byteFromBits r pos ^^^ 16 := by
  unfold byteFromBits
  rw [flipBit_bit_ne r (pos + 3) pos (by omega), flipBit_bit_ne r (pos + 3) (pos + 1) (by omega),
    flipBit_bit_ne r (pos + 3) (pos + 2) (by omega), flipBit_bit_eq r (pos + 3),
    flipBit_bit_ne r (pos + 3) (pos + 4) (by omega), flipBit_bit_ne r (pos + 3) (pos + 5) (by omega),
    flipBit_bit_ne r (pos + 3) (pos + 6) (by omega), flipBit_bit_ne r (pos + 3) (pos + 7) (by omega)]
  exact byteVal_flip3 _ _ _ _ _ _ _ _

theorem byteFromBits_flip4 (r : BitRow) (pos : Nat) :
    byteFromBits (flipBit r (pos + 4)) pos = byteFromBits r pos ^^^ 8 := by
  unfold byteFromBits
  rw [flipBit_bit_ne r (pos + 4) pos (by omega), flipBit_bit_ne r (pos + 4) (pos + 1) (by omega),
    flipBit_bit_ne r (pos + 4) (pos + 2) (by omega), flipBit_bit_ne r (pos + 4) (pos + 3) (by omega),
    flipBit_bit_eq r (pos + 4),
    flipBit_bit_ne r (pos + 4) (pos + 5) (by omega), flipBit_bit_ne r (pos + 4) (pos + 6) (by omega),
    flipBit_bit_ne r (pos + 4) (pos + 7) (by omega)]
  exact byteVal_flip4 _ _ _ _ _ _ _ _

theorem byteFromBits_flip5 (r : BitRow) (pos : Nat) :
    byteFromBits (flipBit r (pos + 5)) pos = byteFromBits r pos ^^^ 4 := by
  unfold byteFromBits
  rw [flipBit_bit_ne r (pos + 5) pos (by omega), flipBit_bit_ne r (pos + 5) (pos + 1) (by omega),
    flipBit_bit_ne r (pos + 5) (pos + 2) (by omega), flipBit_bit_ne r (pos + 5) (pos + 3) (by omega),
    flipBit_bit_ne r (pos + 5) (pos + 4) (by omega), flipBit_bit_eq r (pos + 5),
    flipBit_bit_ne r (pos + 5) (pos + 6) (by omega), flipBit_bit_ne r (pos + 5) (pos + 7) (by omega)]
  exact byteVal_flip5 _ _ _ _ _ _ _ _

theorem byteFromBits_flip6 (r : BitRow) (pos : Nat) :
    byteFromBits (flipBit r (pos + 6)) pos = byteFromBits r pos ^^^ 2 := by
  unfold byteFromBits
  rw [flipBit_bit_ne r (pos + 6) pos (by omega), flipBit_bit_ne r (pos + 6) (pos + 1) (by omega),
    flipBit_bit_ne r (pos + 6) (pos + 2) (by omega), flipBit_bit_ne r (pos + 6) (pos + 3) (by omega),
    flipBit_bit_ne r (pos + 6) (pos + 4) (by omega), flipBit_bit_ne r (pos + 6) (pos + 5) (by omega),
    flipBit_bit_eq r (pos + 6), flipBit_bit_ne r (pos + 6) (pos + 7) (by omega)]
  exact byteVal_flip6 _ _ _ _ _ _ _ _

theorem byteFromBits_flip7 (r : BitRow) (pos : Nat) :
    byteFromBits (flipBit r (pos + 7)) pos = byteFromBits r pos ^^^ 1 := by
  unfold byteFromBits
  rw [flipBit_bit_ne r (pos + 7) pos (by omega), flipBit_bit_ne r (pos + 7) (pos + 1) (by omega),
    flipBit_bit_ne r (pos + 7) (pos + 2) (by omega), flipBit_bit_ne r (pos + 7) (pos + 3) (by omega),
    flipBit_bit_ne r (pos + 7) (pos + 4) (by omega), flipBit_bit_ne r (pos + 7) (pos + 5) (by omega),
    flipBit_bit_ne r (pos + 7) (pos + 6) (by omega), flipBit_bit_eq r (pos + 7)]
  exact byteVal_flip7 _ _ _ _ _ _ _ _

/-- Flipping bit `pos + k` of the row xors `2^(7-k)` into the byte at `pos`. -/
theorem byteFromBits_flipBit_eq (r : BitRow) (pos k : Nat) (hk : k < 8) :
    byteFromBits (flipBit r (pos + k)) pos =
      byteFromBits r pos ^^^ 2 ^ (7 - k) := by
  interval_cases k
  · simpa using byteFromBits_flip0 r pos
  · simpa using byteFromBits_flip1 r pos
  · simpa using byteFromBits_flip2 r pos
  · simpa using byteFromBits_flip3 r pos
  · simpa using byteFromBits_flip4 r pos
  · simpa using byteFromBits_flip5 r pos
  · simpa using byteFromBits_flip6 r pos
  · simpa using byteFromBits_flip7 r pos

/-! ### Preamble search (FrameLocator) -/

/-- The 24 bits of the FSK preamble `0xAA 0x2D 0xD4`, MSB first. -/
def preambleBits : List Bool :=
  [true, false, true, false, true, false, true, false,
   false, false, true, false, true, true, false, true,
   true, true, false, true, false, true, false, false]

/-- The preamble matches fully inside the row at bit position `p`. -/
def preMatch (r : BitRow) (p : Nat) : Prop :=
  p + 24 ≤ r.len ∧ ∀ j, j < 24 → r.bit (p + j) = preambleBits.getD j false

instance (r : BitRow) (p : Nat) : Decidable (preMatch r p) := by
  unfold preMatch; infer_instance

/-- Modelled from the spec: `bitbuffer_search` (not under `src/`) scans the
row from bit `p` with the given fuel for the first full preamble match,
returning the row length when none is found (FrameLocator contract: the
offset of the first preamble match, or out of range when absent). -/
def searchAux (r : BitRow) : Nat → Nat → Nat
  | _, 0 => r.len
  | p, fuel + 1 => if preMatch r p then p else searchAux r (p + 1) fuel

/-- Bit position of the first preamble match of the row (or `r.len`). -/
def findPreamble (r : BitRow) : Nat := searchAux r 0 r.len

theorem searchAux_eq_of (r : BitRow) (q : Nat) (hq : preMatch r q) :
    ∀ fuel p, p ≤ q → (∀ i, p ≤ i → i < q → ¬ preMatch r i) →
      q < p + fuel → searchAux r p fuel = q := by
  intro fuel
  induction fuel with
  | zero => intro p _ _ h; omega
  | succ fuel ih =>
    intro p hpq hmin hlt
    unfold searchAux
    by_cases hp : p = q
    · subst hp; rw [if_pos hq]
    · rw [if_neg (hmin p le_rfl (by omega))]
      exact ih (p + 1) (by omega) (fun i h1 h2 => hmin i (by omega) h2) (by omega)

theorem searchAux_spec (r : BitRow) :
    ∀ fuel p, searchAux r p fuel = r.len ∨
      (preMatch r (searchAux r p fuel) ∧ p ≤ searchAux r p fuel ∧
        ∀ i, p ≤ i → i < searchAux r p fuel → ¬ preMatch r i) := by
  intro fuel
  induction fuel with
  | zero => intro p; left; rfl
  | succ fuel ih =>
    intro p
    unfold searchAux
    by_cases hp : preMatch r p
    · rw [if_pos hp]; right; exact ⟨hp, le_rfl, fun i h1 h2 => by omega⟩
    · rw [if_neg hp]
      rcases ih (p + 1) with h | ⟨h1, h2, h3⟩
      · left; exact h
      · right
        refine ⟨h1, by omega, fun i hi1 hi2 => ?_⟩
        by_cases hip : i = p
        · subst hip; exact hp
        · exact h3 i (by omega) hi2

/-- Specification of `findPreamble`: either no match (result is the row
length) or the result is the first full preamble match. -/
theorem findPreamble_spec (r : BitRow) :
    findPreamble r = r.len ∨
      (preMatch r (findPreamble r) ∧
        ∀ i, i < findPreamble r → ¬ preMatch r i) := by
  rcases searchAux_spec r r.len 0 with h | ⟨h1, _, h3⟩
  · left; exact h
  · right; exact ⟨h1, fun i hi => h3 i (Nat.zero_le i) hi⟩

/-- A preamble match only looks at 24 bits and the length. -/
theorem preMatch_flipBit (r : BitRow) (f p : Nat) (h : p + 24 ≤ f) :
    preMatch (flipBit r f) p ↔ preMatch r p := by
  unfold preMatch
  rw [flipBit_len]
  constructor
  · rintro ⟨h1, h2⟩
    refine ⟨h1, fun j hj => ?_⟩
    rw [← h2 j hj, flipBit_bit_ne r f (p + j) (by omega)]
  · rintro ⟨h1, h2⟩
    refine ⟨h1, fun j hj => ?_⟩
    rw [flipBit_bit_ne r f (p + j) (by omega)]
    exact h2 j hj

/-- Flipping a bit at or beyond the end of the first preamble match does not
move the first match. -/
theorem findPreamble_flipBit (r : BitRow) (f q : Nat) (hq : preMatch r q)
    (hmin : ∀ i, i < q → ¬ preMatch r i) (hf : q + 24 ≤ f) :
    findPreamble (flipBit r f) = q := by
  have hq' : preMatch (flipBit r f) q := (preMatch_flipBit r f q hf).mpr hq
  have hlen : q < r.len := by
    rcases hq with ⟨h1, -⟩; omega
  unfold findPreamble
  rw [flipBit_len]
  refine searchAux_eq_of (flipBit r f) q hq' r.len 0 (Nat.zero_le q) ?_ (by omega)
  intro i _ hi
  rw [preMatch_flipBit r f i (by omega)]
  exact hmin i hi

/-- If the first match leaves room for an `L`-byte frame, `findPreamble`
really is a first match (not the not-found value). -/
theorem findPreamble_match (r : BitRow) (L : Nat) (hL : 0 < L)
    (h : findPreamble r + 24 + 8 * L ≤ r.len) :
    preMatch r (findPreamble r) ∧ ∀ i, i < findPreamble r → ¬ preMatch r i := by
  rcases findPreamble_spec r with hfp | hfp
  · omega
  · exact hfp

/-! ### Integrity primitives -/

/-- Modelled from the spec: one shift step of CRC-8 (glossary: generator
polynomial `0x31`, init `0x00`; `crc8` is not under `src/`). The remainder is
a byte; the top bit selects the polynomial feedback. -/
def crc8_shift (poly rem : Nat) : Nat :=
  if rem.testBit 7 then (2 * rem ^^^ poly) % 256 else 2 * rem % 256

/-- `n` iterated CRC shift steps. -/
def crc8_iter (poly rem : Nat) : Nat → Nat
  | 0 => rem
  | n + 1 => crc8_iter poly (crc8_shift poly rem) n

/-- One message byte folded into the CRC remainder: xor, then 8 shifts. -/
def crc8_fold (poly : Nat) (msg : List Nat) (init : Nat) : Nat :=
  msg.foldl (fun rem b => crc8_iter poly (rem ^^^ b) 8) init

/-- Modelled from the spec: `crc8(message, nBytes, polynomial, init)` of the
shared util library (not under `src/`) — CRC-8 over the first `nBytes` bytes. -/
def crc8 (msg : List Nat) (nBytes poly init : Nat) : Nat :=
  crc8_fold poly (msg.take nBytes) init

/-- Modelled from the spec: `add_bytes(message, num_bytes)` (not under
`src/`) — plain sum of the first `num_bytes` bytes (callers truncate). -/
def add_bytes (msg : List Nat) (nBytes : Nat) : Nat :=
  (msg.take nBytes).sum

/-- Modelled from the spec: `xor_bytes(message, num_bytes)` (not under
`src/`) — xor of the first `num_bytes` bytes. -/
def xor_bytes (msg : List Nat) (nBytes : Nat) : Nat :=
  (msg.take nBytes).foldl (fun a b => a ^^^ b) 0

theorem xor_lt_256 : ∀ a, a < 256 → ∀ b, b < 256 → a ^^^ b < 256 := by
  have h : (256 : Nat) = 2 ^ 8 := by norm_num
  intro a ha b hb
  rw [h] at ha hb ⊢
  exact Nat.xor_lt_two_pow ha hb

theorem crc8_shift_lt : ∀ a, a < 256 → crc8_shift 0x31 a < 256 := by
  intro a _
  unfold crc8_shift
  split <;> exact Nat.mod_lt _ (by norm_num)

theorem two_mul_xor (x y : Nat) : 2 * (x ^^^ y) = 2 * x ^^^ 2 * y := by
  have h : ∀ z : Nat, 2 * z = z <<< 1 := by
    intro z
    rw [Nat.shiftLeft_eq]
    ring
  rw [h, h, h]
  apply Nat.eq_of_testBit_eq
  intro i
  rw [Nat.testBit_xor, Nat.testBit_shiftLeft, Nat.testBit_shiftLeft,
    Nat.testBit_shiftLeft, Nat.testBit_xor, Bool.and_xor_distrib_left]

theorem xor_mod_256 (x y : Nat) : (x ^^^ y) % 256 = x % 256 ^^^ y % 256 := by
  have h : (256 : Nat) = 2 ^ 8 := by norm_num
  rw [h]
  apply Nat.eq_of_testBit_eq
  intro i
  simp only [Nat.testBit_mod_two_pow, Nat.testBit_xor]
  rw [Bool.and_xor_distrib_left]

theorem xor_left_comm_nat (a b c : Nat) : a ^^^ (b ^^^ c) = b ^^^ (a ^^^ c) := by
  rw [← Nat.xor_assoc, Nat.xor_comm a b, Nat.xor_assoc]

theorem crc8_shift_xor : ∀ a, a < 256 → ∀ b, b < 256 →
    crc8_shift 0x31 (a ^^^ b) = crc8_shift 0x31 a ^^^ crc8_shift 0x31 b := by
  intro a _ b _
  unfold crc8_shift
  rw [Nat.testBit_xor]
  rcases h1 : a.testBit 7 <;> rcases h2 : b.testBit 7 <;>
    simp only [Bool.xor_false, Bool.xor_true, Bool.false_xor, Bool.true_xor,
      Bool.not_false, Bool.not_true, if_true, if_false, ite_true, ite_false] <;>
    rw [two_mul_xor] <;>
    simp only [xor_mod_256] <;>
    (simp [Nat.xor_assoc, xor_left_comm_nat, Nat.xor_comm, Nat.xor_self, Nat.xor_zero];
     try rw [← Nat.xor_assoc, Nat.xor_self, Nat.zero_xor])

theorem crc8_iter_lt (n : Nat) : ∀ a, a < 256 → crc8_iter 0x31 a n < 256 := by
  induction n with
  | zero => intro a ha; exact ha
  | succ n ih => intro a ha; exact ih _ (crc8_shift_lt a ha)

theorem crc8_iter_xor (n : Nat) : ∀ a, a < 256 → ∀ b, b < 256 →
    crc8_iter 0x31 (a ^^^ b) n = crc8_iter 0x31 a n ^^^ crc8_iter 0x31 b n := by
  induction n with
  | zero => intro a _ b _; rfl
  | succ n ih =>
    intro a ha b hb
    show crc8_iter 0x31 (crc8_shift 0x31 (a ^^^ b)) n = _
    rw [crc8_shift_xor a ha b hb]
    exact ih _ (crc8_shift_lt a ha) _ (crc8_shift_lt b hb)

theorem crc8_iter_add (m n : Nat) (a : Nat) :
    crc8_iter 0x31 a (m + n) = crc8_iter 0x31 (crc8_iter 0x31 a m) n := by
  induction m generalizing a with
  | zero => rw [Nat.zero_add]; rfl
  | succ m ih =>
    have h1 : m + 1 + n = (m + n) + 1 := by omega
    rw [h1]
    show crc8_iter 0x31 (crc8_shift 0x31 a) (m + n) =
      crc8_iter 0x31 (crc8_iter 0x31 (crc8_shift 0x31 a) m) n
    exact ih (crc8_shift 0x31 a)

theorem crc8_fold_lt (l : List Nat) : ∀ init, init < 256 →
    (∀ x ∈ l, x < 256) → crc8_fold 0x31 l init < 256 := by
  induction l with
  | nil => intro init h _; exact h
  | cons b l ih =>
    intro init h hl
    refine ih _ (crc8_iter_lt 8 _ (xor_lt_256 init h b (hl b (List.mem_cons_self b l)))) ?_
    intro x hx; exact hl x (List.mem_cons_of_mem b hx)

/-- A change of the initial remainder diffuses through a fold over `l` as
`8 * l.length` CRC shift steps. -/
theorem crc8_fold_xor (l : List Nat) : ∀ a, a < 256 → ∀ e, e < 256 →
    (∀ x ∈ l, x < 256) →
    crc8_fold 0x31 l (a ^^^ e) =
      crc8_fold 0x31 l a ^^^ crc8_iter 0x31 e (8 * l.length) := by
  induction l with
  | nil => intro a _ e _ _; rfl
  | cons b l ih =>
    intro a ha e he hl
    have hb : b < 256 := hl b (List.mem_cons_self b l)
    have hab : a ^^^ b < 256 := xor_lt_256 a ha b hb
    show crc8_fold 0x31 l (crc8_iter 0x31 (a ^^^ e ^^^ b) 8) = _
    have hre : a ^^^ e ^^^ b = (a ^^^ b) ^^^ e := by
      rw [Nat.xor_assoc, Nat.xor_assoc, Nat.xor_comm e b]
    rw [hre, crc8_iter_xor 8 _ hab _ he]
    rw [ih _ (crc8_iter_lt 8 _ hab) _ (crc8_iter_lt 8 e he)
      (fun x hx => hl x (List.mem_cons_of_mem b hx))]
    have : crc8_iter 0x31 (crc8_iter 0x31 e 8) (8 * l.length) =
        crc8_iter 0x31 e (8 * (b :: l).length) := by
      rw [← crc8_iter_add]
      congr 1
      simp [List.length_cons]
      ring
    rw [this]
    rfl

/-! ### Single-bit-flip detection lemmas -/

theorem getD_take (l : List Nat) (j n : Nat) (hj : j < n) :
    (l.take n).getD j 0 = l.getD j 0 := by
  simp [List.getD_eq_getElem?_getD, List.getElem?_take, hj]

theorem getD_set_ne (l : List Nat) (i j : Nat) (x : Nat) (h : i ≠ j) :
    (l.set i x).getD j 0 = l.getD j 0 := by
  simp [List.getD_eq_getElem?_getD, List.getElem?_set_ne h]

theorem getD_set_eq (l : List Nat) (i : Nat) (x : Nat) (hi : i < l.length) :
    (l.set i x).getD i 0 = x := by
  simp [List.getD_eq_getElem?_getD, List.getElem?_set_self hi]

theorem getD_lt_256 (l : List Nat) (j : Nat) (hb : ∀ x ∈ l, x < 256)
    (hj : j < l.length) : l.getD j 0 < 256 := by
  have h : l.getD j 0 = l[j] := by
    simp [List.getD_eq_getElem?_getD, List.getElem?_eq_getElem hj]
  rw [h]
  exact hb _ (List.getElem_mem hj)

theorem sum_set_add (l : List Nat) : ∀ j x, j < l.length →
    (l.set j x).sum + l.getD j 0 = l.sum + x := by
  induction l with
  | nil => intro j x hj; simp at hj
  | cons b t ih =>
    intro j x hj
    cases j with
    | zero => simp [List.sum_cons]; omega
    | succ j =>
      have := ih j x (by simpa using Nat.lt_of_succ_lt_succ hj)
      simp only [List.set_cons_succ, List.sum_cons, List.getD_cons_succ]
      omega

theorem xor_pm : ∀ b, b < 256 → ∀ t, t < 8 →
    (b ^^^ 2 ^ t = b + 2 ^ t ∨ (b ^^^ 2 ^ t) + 2 ^ t = b) := by decide

theorem two_pow_lt_256 : ∀ t, t < 8 → 2 ^ t < 256 := by decide

theorem xor_pow_ne : ∀ b, b < 256 → ∀ t, t < 8 → b ^^^ 2 ^ t ≠ b := by decide

/-- Flipping one bit of one byte covered by the additive checksum changes the
truncated byte sum. -/
theorem add_bytes_set_ne (l : List Nat) (n j t : Nat)
    (hb : ∀ x ∈ l, x < 256) (hj : j < n) (hjl : j < l.length)
    (hn : n ≤ l.length) (ht : t < 8) :
    add_bytes (l.set j (l.getD j 0 ^^^ 2 ^ t)) n % 256 ≠ add_bytes l n % 256 := by
  unfold add_bytes
  rw [List.set_take]
  have hjt : j < (l.take n).length := by
    simp only [List.length_take]
    omega
  have hsum := sum_set_add (l.take n) j (l.getD j 0 ^^^ 2 ^ t) hjt
  rw [getD_take l j n hj] at hsum
  have hlt : l.getD j 0 < 256 := getD_lt_256 l j hb hjl
  rcases xor_pm (l.getD j 0) hlt t ht with hx | hx
  · have he : ((l.take n).set j (l.getD j 0 ^^^ 2 ^ t)).sum =
        (l.take n).sum + 2 ^ t := by omega
    rw [he]
    interval_cases t <;> omega
  · have he : ((l.take n).set j (l.getD j 0 ^^^ 2 ^ t)).sum + 2 ^ t =
        (l.take n).sum := by omega
    interval_cases t <;> omega

/-- Xoring `d` into one byte xors a diffusion term into the CRC fold. -/
theorem crc8_fold_set (l : List Nat) : ∀ init, init < 256 →
    (∀ x ∈ l, x < 256) → ∀ j, j < l.length → ∀ d, d < 256 →
    crc8_fold 0x31 (l.set j (l.getD j 0 ^^^ d)) init =
      crc8_fold 0x31 l init ^^^ crc8_iter 0x31 d (8 * (l.length - j)) := by
  induction l with
  | nil => intro init _ _ j hj; simp at hj
  | cons b tl ih =>
    intro init hinit hl j hj d hd
    have hb : b < 256 := hl b (List.mem_cons_self b tl)
    have htl : ∀ x ∈ tl, x < 256 := fun x hx => hl x (List.mem_cons_of_mem b hx)
    cases j with
    | zero =>
      have h0 : (b :: tl).set 0 ((b :: tl).getD 0 0 ^^^ d) = (b ^^^ d) :: tl := by
        simp
      rw [h0]
      show crc8_fold 0x31 tl (crc8_iter 0x31 (init ^^^ (b ^^^ d)) 8) = _
      have hre : init ^^^ (b ^^^ d) = (init ^^^ b) ^^^ d :=
        (Nat.xor_assoc init b d).symm
      have hib : init ^^^ b < 256 := xor_lt_256 init hinit b hb
      rw [hre, crc8_iter_xor 8 _ hib _ hd]
      rw [crc8_fold_xor tl _ (crc8_iter_lt 8 _ hib) _ (crc8_iter_lt 8 d hd) htl]
      rw [← crc8_iter_add]
      have hlen : 8 + 8 * tl.length = 8 * ((b :: tl).length - 0) := by
        simp [List.length_cons]
        ring
      rw [hlen]
      rfl
    | succ j =>
      have hjt : j < tl.length := by simpa using Nat.lt_of_succ_lt_succ hj
      have h1 : (b :: tl).set (j + 1) ((b :: tl).getD (j + 1) 0 ^^^ d) =
          b :: tl.set j (tl.getD j 0 ^^^ d) := by
        simp [List.getD_cons_succ]
      rw [h1]
      show crc8_fold 0x31 (tl.set j (tl.getD j 0 ^^^ d))
          (crc8_iter 0x31 (init ^^^ b) 8) = _
      rw [ih _ (crc8_iter_lt 8 _ (xor_lt_256 init hinit b hb)) htl j hjt d hd]
      have hlen : (b :: tl).length - (j + 1) = tl.length - j := by simp
      rw [hlen]
      rfl

/-- `crc8` over the first `n` bytes after xoring `d` into byte `j < n`. -/
theorem crc8_take_set (l : List Nat) (n j d : Nat) (hb : ∀ x ∈ l, x < 256)
    (hj : j < n) (hn : n ≤ l.length) (hd : d < 256) :
    crc8 (l.set j (l.getD j 0 ^^^ d)) n 0x31 0 =
      crc8 l n 0x31 0 ^^^ crc8_iter 0x31 d (8 * (n - j)) := by
  unfold crc8
  rw [List.set_take]
  have hjt : j < (l.take n).length := by
    simp only [List.length_take]
    omega
  have htb : ∀ x ∈ l.take n, x < 256 := fun x hx => hb x (List.mem_of_mem_take hx)
  have hgd : l.getD j 0 = (l.take n).getD j 0 := (getD_take l j n hj).symm
  rw [hgd, crc8_fold_set (l.take n) 0 (by norm_num) htb j hjt d hd]
  have hlt : (l.take n).length = n := by
    simp [List.length_take]
    omega
  rw [hlt]

/-- No 8-step CRC diffusion of a one-bit error over at most 17 bytes is zero:
CRC-8 poly 0x31 detects every single-bit error at the frame sizes in use. -/
theorem crc8_iter_pow_ne : ∀ s, s < 18 → 1 ≤ s → ∀ t, t < 8 →
    crc8_iter 0x31 (2 ^ t) (8 * s) ≠ 0 := by decide

/-- Flipping any single bit of the CRC-covered range changes the CRC-8. -/
theorem crc8_flip_ne (l : List Nat) (n j t : Nat) (hb : ∀ x ∈ l, x < 256)
    (hj : j < n) (hn : n ≤ l.length) (ht : t < 8) (hs : n - j < 18) :
    crc8 (l.set j (l.getD j 0 ^^^ 2 ^ t)) n 0x31 0 ≠ crc8 l n 0x31 0 := by
  rw [crc8_take_set l n j (2 ^ t) hb hj hn (two_pow_lt_256 t ht)]
  intro heq
  have hzero : crc8_iter 0x31 (2 ^ t) (8 * (n - j)) = 0 := by
    have h1 : crc8 l n 0x31 0 ^^^
        (crc8 l n 0x31 0 ^^^ crc8_iter 0x31 (2 ^ t) (8 * (n - j))) =
        crc8_iter 0x31 (2 ^ t) (8 * (n - j)) := by
      rw [← Nat.xor_assoc, Nat.xor_self, Nat.zero_xor]
    rw [← h1, heq, Nat.xor_self]
  exact crc8_iter_pow_ne (n - j) (by omega) (by omega) t ht hzero

/-! ### Device decoders of `fineoffset.c` -/

def MODEL_WH2 : Nat := 2
def MODEL_WH2A : Nat := 3
def MODEL_WH5 : Nat := 5
def MODEL_RB : Nat := 6
def MODEL_TP : Nat := 7
def MODEL_WH24 : Nat := 24
def MODEL_WH65B : Nat := 65

/-- `wind_dir_degr`: the 16-point compass lookup table at the top of the file. -/
def wind_dir_degr : List Nat :=
  [0, 23, 45, 68, 90, 113, 135, 158, 180, 203, 225, 248, 270, 293, 315, 338]

/-- WH2-family temperature (`fineoffset_WH2_callback` lines 102-114):
sign-magnitude for WH2/WH2A/Telldus, `-400` offset for WH5 (row length 47,
`user_data` is always 0). -/
def wh2_temp (n : Nat) (b : List Nat) : ℤ :=
  if n ≠ 47 then
    (if ((b.getD 1 0 &&& 0x0F) <<< 8 ||| b.getD 2 0) &&& 0x800 ≠ 0 then
      -(((((b.getD 1 0 &&& 0x0F) <<< 8 ||| b.getD 2 0) &&& 0x7FF : Nat)) : ℤ)
    else (((b.getD 1 0 &&& 0x0F) <<< 8 ||| b.getD 2 0 : Nat) : ℤ))
  else (((b.getD 1 0 &&& 0x0F) <<< 8 ||| b.getD 2 0 : Nat) : ℤ) - 400

/-- The `data_make` call of the WH2-family decoder. -/
def wh2DataMake (model_num : Nat) (id : Nat) (temperature : ℚ) (humidity : Nat) :
    SensorData :=
  (if model_num = MODEL_WH2 then [("model", FieldValue.str "Fineoffset-WH2")] else []) ++
  (if model_num = MODEL_WH2A then [("model", FieldValue.str "Fineoffset-WH2A")] else []) ++
  (if model_num = MODEL_WH5 then [("model", FieldValue.str "Fineoffset-WH5")] else []) ++
  (if model_num = MODEL_RB then [("model", FieldValue.str "Rosenborg-66796")] else []) ++
  (if model_num = MODEL_TP then [("model", FieldValue.str "Fineoffset-TelldusProove")] else []) ++
  [("id", FieldValue.int id),
   ("temperature_C", FieldValue.rat temperature)] ++
  (if humidity ≠ 0xff then [("humidity", FieldValue.int humidity)] else []) ++
  [("mic", FieldValue.str "CRC")]

/-- Common validation and decoding of the WH2 family after frame extraction
(`fineoffset_WH2_callback` lines 88-134). -/
def wh2Common (b : List Nat) (model_num n : Nat) : DecodeResult :=
  if b.getD 4 0 ≠ crc8 b 4 0x31 0 then DecodeResult.failMic
  else if b.getD 0 0 >>> 4 ≠ 4 then DecodeResult.failSanity
  else
    DecodeResult.record (wh2DataMake model_num
      ((b.getD 0 0 &&& 0x0F) <<< 4 ||| (b.getD 1 0 &&& 0xF0) >>> 4)
      ((wh2_temp n b : ℚ) * (1 / 10))
      (b.getD 3 0))

/-- `fineoffset_WH2_callback`: length/header dispatch of the WH2 family. -/
def fineoffset_WH2_callback (r : BitRow) : DecodeResult :=
  if r.len = 48 ∧ rowByte r 0 = 0xFF then
    wh2Common (extractBytes r 8 5) MODEL_WH2 r.len
  else if r.len = 55 ∧ rowByte r 0 = 0xFE then
    wh2Common (extractBytes r 7 6) MODEL_WH2A r.len
  else if r.len = 47 ∧ rowByte r 0 = 0xFE then
    wh2Common (extractBytes r 7 5) MODEL_WH5 r.len
  else if r.len = 49 ∧ rowByte r 0 = 0xFF ∧ rowByte r 1 &&& 0x80 = 0x80 then
    wh2Common (extractBytes r 9 5) MODEL_TP r.len
  else DecodeResult.abortLength

/-- The `uvi_upper` threshold table of `fineoffset_WH24_callback`. -/
def uvi_upper : List Nat :=
  [432, 851, 1210, 1570, 2017, 2450, 2761, 3100, 3512, 3918, 4277, 4650, 5029]

/-- The `while (uv_index < 13 && uvi_upper[uv_index] < uv_raw) ++uv_index;`
loop, running from index `i`; the loop advances at most 13 times, which the
fuel argument makes structural. -/
def uvIndexFrom (uv_raw : Nat) : Nat → Nat → Nat
  | i, 0 => i
  | i, fuel + 1 =>
    if i < 13 then
      (if uvi_upper.getD i 0 < uv_raw then uvIndexFrom uv_raw (i + 1) fuel else i)
    else i

/-- UV index computed by the WH24/WH65B decoder from the raw UV value. -/
def uvIndex (uv_raw : Nat) : Nat := uvIndexFrom uv_raw 0 13

/-- The WH24 vs WH65B classification heuristics
(`fineoffset_WH24_callback` lines 160-167). -/
def wh24Classify (n off : Nat) : Nat :=
  if n - off - 17 * 8 < 8 then
    (if off < 61 then MODEL_WH24 else MODEL_WH65B)
  else MODEL_WH65B

def wind_speed_factor (ty : Nat) : ℚ :=
  if ty = MODEL_WH24 then 112 / 100 else 51 / 100

def rain_cup_count (ty : Nat) : ℚ :=
  if ty = MODEL_WH24 then 3 / 10 else 254 / 1000

def wh24_wind_dir (b : List Nat) : Nat := b.getD 2 0 ||| (b.getD 3 0 &&& 0x80) <<< 1

def wh24_low_battery (b : List Nat) : Nat := (b.getD 3 0 &&& 0x08) >>> 3

def wh24_temp_raw (b : List Nat) : Nat := (b.getD 3 0 &&& 0x07) <<< 8 ||| b.getD 4 0

def wh24_wind_speed_raw (b : List Nat) : Nat := b.getD 6 0 ||| (b.getD 3 0 &&& 0x10) <<< 4

def wh24_rainfall_raw (b : List Nat) : Nat := b.getD 8 0 <<< 8 ||| b.getD 9 0

def wh24_uv_raw (b : List Nat) : Nat := b.getD 10 0 <<< 8 ||| b.getD 11 0

def wh24_light_raw (b : List Nat) : Nat :=
  b.getD 12 0 <<< 16 ||| b.getD 13 0 <<< 8 ||| b.getD 14 0

/-- Field decoding and `data_make` of `fineoffset_WH24_callback`
(lines 186-232). -/
def wh24MakeData (ty : Nat) (b : List Nat) : SensorData :=
  [("model", FieldValue.str
      (if ty = MODEL_WH24 then "Fineoffset-WH24" else "Fineoffset-WH65B")),
   ("id", FieldValue.int (b.getD 1 0)),
   ("battery_ok", FieldValue.int (if wh24_low_battery b = 0 then 1 else 0))] ++
  (if wh24_temp_raw b ≠ 0x7ff then
    [("temperature_C", FieldValue.rat (((wh24_temp_raw b : ℚ) - 400) * (1 / 10)))]
   else []) ++
  (if b.getD 5 0 ≠ 0xff then [("humidity", FieldValue.int (b.getD 5 0))] else []) ++
  (if wh24_wind_dir b ≠ 0x1ff then
    [("wind_dir_deg", FieldValue.int (wh24_wind_dir b))] else []) ++
  (if wh24_wind_speed_raw b ≠ 0x1ff then
    [("wind_avg_m_s", FieldValue.rat
      ((wh24_wind_speed_raw b : ℚ) * (1 / 8) * wind_speed_factor ty))] else []) ++
  (if b.getD 7 0 ≠ 0xff then
    [("wind_max_m_s", FieldValue.rat ((b.getD 7 0 : ℚ) * wind_speed_factor ty))]
   else []) ++
  [("rain_mm", FieldValue.rat ((wh24_rainfall_raw b : ℚ) * rain_cup_count ty))] ++
  (if wh24_uv_raw b ≠ 0xffff then [("uv", FieldValue.int (wh24_uv_raw b))] else []) ++
  (if wh24_uv_raw b ≠ 0xffff then
    [("uvi", FieldValue.int (uvIndex (wh24_uv_raw b)))] else []) ++
  (if wh24_light_raw b ≠ 0xffffff then
    [("light_lux", FieldValue.rat ((wh24_light_raw b : ℚ) * (1 / 10)))] else []) ++
  [("mic", FieldValue.str "CRC")]

/-- `fineoffset_WH24_callback`: length window, preamble search, WH24/WH65B
classification, sanity byte, CRC-8 over 15 bytes and byte sum over 16 bytes. -/
def fineoffset_WH24_callback (r : BitRow) : DecodeResult :=
  if r.len < 190 ∨ r.len > 215 then DecodeResult.abortLength
  else if findPreamble r + 24 + 17 * 8 > r.len then DecodeResult.abortLength
  else if (extractBytes r (findPreamble r + 24) 17).getD 0 0 ≠ 0x24 then
    DecodeResult.failSanity
  else if crc8 (extractBytes r (findPreamble r + 24) 17) 15 0x31 0 ≠
        (extractBytes r (findPreamble r + 24) 17).getD 15 0 ∨
      add_bytes (extractBytes r (findPreamble r + 24) 17) 16 % 256 ≠
        (extractBytes r (findPreamble r + 24) 17).getD 16 0 then
    DecodeResult.failMic
  else DecodeResult.record
    (wh24MakeData (wh24Classify r.len (findPreamble r + 24))
      (extractBytes r (findPreamble r + 24) 17))

/-- Field decoding and `data_make` of `fineoffset_WH0290_callback`. -/
def wh0290MakeData (b : List Nat) : SensorData :=
  [("model", FieldValue.str "Fineoffset-WH0290"),
   ("id", FieldValue.int (b.getD 1 0)),
   ("battery_ok", FieldValue.rat
     ((((b.getD 2 0 &&& 0x40) >>> 4 ||| (b.getD 4 0 &&& 0xC0) >>> 6 : Nat) : ℚ) * (1 / 5))),
   ("pm2_5_ug_m3", FieldValue.int
     ((((b.getD 2 0 &&& 0x3f) <<< 8 ||| b.getD 3 0) / 10 : Nat) : ℤ)),
   ("estimated_pm10_0_ug_m3", FieldValue.int
     ((((b.getD 4 0 &&& 0x3f) <<< 8 ||| b.getD 5 0) / 10 : Nat) : ℤ)),
   ("family", FieldValue.int (b.getD 0 0)),
   ("unknown1", FieldValue.int (if b.getD 2 0 &&& 0x80 ≠ 0 then 1 else 0)),
   ("mic", FieldValue.str "CRC")]

/-- `fineoffset_WH0290_callback`: preamble search, 8-byte frame, CRC-8 over
6 bytes against byte 6 and byte sum over 7 bytes against byte 7. -/
def fineoffset_WH0290_callback (r : BitRow) : DecodeResult :=
  if findPreamble r + 24 + 8 * 8 > r.len then DecodeResult.abortLength
  else if crc8 (extractBytes r (findPreamble r + 24) 8) 6 0x31 0 ≠
        (extractBytes r (findPreamble r + 24) 8).getD 6 0 ∨
      add_bytes (extractBytes r (findPreamble r + 24) 8) 7 % 256 ≠
        (extractBytes r (findPreamble r + 24) 8).getD 7 0 then
    DecodeResult.failMic
  else DecodeResult.record (wh0290MakeData (extractBytes r (findPreamble r + 24) 8))

/-- The nibble-swapped xor-sum of `fineoffset_WH25_callback` line 344:
`((bitsum & 0x0f) << 4) | (bitsum >> 4)`. -/
def nibSwap (x : Nat) : Nat := (x &&& 0x0f) <<< 4 ||| x >>> 4

/-- Field decoding and `data_make` of `fineoffset_WH25_callback`
(lines 350-371); type 31 = WH32, 32 = WH32B, 25 = WH25. -/
def wh25MakeData (ty : Nat) (b : List Nat) : SensorData :=
  (if ty = 31 then [("model", FieldValue.str "Fineoffset-WH32")] else []) ++
  (if ty = 32 then [("model", FieldValue.str "Fineoffset-WH32B")] else []) ++
  (if ty = 25 then [("model", FieldValue.str "Fineoffset-WH25")] else []) ++
  [("id", FieldValue.int ((b.getD 0 0 &&& 0x0f) <<< 4 ||| b.getD 1 0 >>> 4)),
   ("battery_ok", FieldValue.int (if (b.getD 1 0 &&& 0x08) >>> 3 = 0 then 1 else 0)),
   ("temperature_C", FieldValue.rat
     (((((b.getD 1 0 &&& 0x03) <<< 8 ||| b.getD 2 0 : Nat) : ℚ) - 400) * (1 / 10))),
   ("humidity", FieldValue.int (b.getD 3 0))] ++
  (if (b.getD 4 0 <<< 8 ||| b.getD 5 0) ≠ 0xffff then
    [("pressure_hPa", FieldValue.rat
      (((b.getD 4 0 <<< 8 ||| b.getD 5 0 : Nat) : ℚ) * (1 / 10)))] else []) ++
  [("mic", FieldValue.str "CRC")]

/-- Checksum validation and decoding of `fineoffset_WH25_callback`
(lines 335-374): additive checksum in byte 6, and for the classic WH25 type
only, the nibble-swapped xor-sum in byte 7. -/
def wh25Checks (ty : Nat) (b : List Nat) : DecodeResult :=
  if add_bytes b 6 % 256 ≠ b.getD 6 0 then DecodeResult.failMic
  else if ty = 25 ∧ nibSwap (xor_bytes b 6) ≠ b.getD 7 0 then DecodeResult.failMic
  else DecodeResult.record (wh25MakeData ty b)

/-- `fineoffset_WH25_callback` after length routing: preamble search, 8-byte
frame, message-type verification (lines 313-333) and checks. -/
def wh25Body (r : BitRow) (ty : Nat) : DecodeResult :=
  if findPreamble r + 24 + 8 * 8 > r.len then DecodeResult.abortLength
  else if ty = 32 ∧ (extractBytes r (findPreamble r + 24) 8).getD 0 0 &&& 0xf0 = 0xd0 then
    wh25Checks 31 (extractBytes r (findPreamble r + 24) 8)
  else if (extractBytes r (findPreamble r + 24) 8).getD 0 0 &&& 0xf0 = 0xe0 then
    wh25Checks ty (extractBytes r (findPreamble r + 24) 8)
  else if (extractBytes r (findPreamble r + 24) 8).getD 0 0 = 0x41 then
    fineoffset_WH0290_callback r
  else DecodeResult.abortEarly

/-- `fineoffset_WH25_callback`: the length-based router of the WH25 umbrella
(lines 298-311), then the common body with the tentative type. -/
def fineoffset_WH25_callback (r : BitRow) : DecodeResult :=
  if r.len < 160 then fineoffset_WH0290_callback r
  else if r.len < 190 then wh25Body r 32
  else if r.len < 440 then fineoffset_WH24_callback r
  else if r.len > 510 then wh25Body r 32
  else wh25Body r 25

def hexChar (n : Nat) : Char :=
  if n < 10 then Char.ofNat (48 + n) else Char.ofNat (87 + n)

/-- `%02x` formatting of one byte. -/
def hex2 (n : Nat) : String := String.mk [hexChar (n / 16 % 16), hexChar (n % 16)]

/-- `%04x` formatting of one 16-bit value. -/
def hex4 (n : Nat) : String :=
  String.mk [hexChar (n / 4096 % 16), hexChar (n / 256 % 16),
    hexChar (n / 16 % 16), hexChar (n % 16)]

/-- Field decoding and `data_make` of `fineoffset_WH51_callback`. -/
def wh51MakeData (b : List Nat) : SensorData :=
  [("model", FieldValue.str "Fineoffset-WH51"),
   ("id", FieldValue.str (hex2 (b.getD 1 0) ++ hex2 (b.getD 2 0) ++ hex2 (b.getD 3 0))),
   ("battery_ok", FieldValue.rat
     (((((b.getD 4 0 &&& 0x1f) * 100 : Nat) : ℚ) - 700) * (1 / 900))),
   ("battery_mV", FieldValue.int (((b.getD 4 0 &&& 0x1f) * 100 : Nat) : ℤ)),
   ("moisture", FieldValue.int (b.getD 6 0)),
   ("boost", FieldValue.int ((b.getD 4 0 &&& 0xe0) >>> 5)),
   ("ad_raw", FieldValue.int ((b.getD 7 0 &&& 0x01) <<< 8 ||| b.getD 8 0)),
   ("mic", FieldValue.str "CRC")]

/-- `fineoffset_WH51_callback`: length guard, preamble search, family byte
`0x51`, byte sum over 13 bytes and CRC-8 over 12 bytes. -/
def fineoffset_WH51_callback (r : BitRow) : DecodeResult :=
  if r.len < 120 then DecodeResult.abortLength
  else if findPreamble r + 24 + 14 * 8 > r.len then DecodeResult.abortLength
  else if (extractBytes r (findPreamble r + 24) 14).getD 0 0 ≠ 0x51 then
    DecodeResult.abortEarly
  else if add_bytes (extractBytes r (findPreamble r + 24) 14) 13 % 256 ≠
      (extractBytes r (findPreamble r + 24) 14).getD 13 0 then
    DecodeResult.failMic
  else if crc8 (extractBytes r (findPreamble r + 24) 14) 12 0x31 0 ≠
      (extractBytes r (findPreamble r + 24) 14).getD 12 0 then
    DecodeResult.failMic
  else DecodeResult.record (wh51MakeData (extractBytes r (findPreamble r + 24) 14))

/-- Shared field decoding and `data_make` of the Alecto WS-1200 v1/v2 and
WH0530 decoders (identical layouts: id, battery, temperature, 0.3 mm rain
with the low-order rain byte first in the frame). -/
def alectoRainData (model : String) (b : List Nat) : SensorData :=
  [("model", FieldValue.str model),
   ("id", FieldValue.int ((b.getD 0 0 &&& 0x0f) <<< 4 ||| b.getD 1 0 >>> 4)),
   ("battery_ok", FieldValue.int (if b.getD 1 0 >>> 3 &&& 0x1 = 0 then 1 else 0)),
   ("temperature_C", FieldValue.rat
     (((((b.getD 1 0 &&& 0x7) <<< 8 ||| b.getD 2 0 : Nat) : ℚ) - 400) * (1 / 10))),
   ("rain_mm", FieldValue.rat
     (((b.getD 4 0 <<< 8 ||| b.getD 3 0 : Nat) : ℚ) * (3 / 10))),
   ("mic", FieldValue.str "CRC")]

/-- `alecto_ws1200v1_callback`: 63-bit row, 7-bit ones preamble, type nibble
3, CRC-8 over all 7 frame bytes must be zero. -/
def alecto_ws1200v1_callback (r : BitRow) : DecodeResult :=
  if r.len ≠ 63 ∨ rowByte r 0 >>> 1 ≠ 0x7F ∨ rowByte r 1 >>> 5 ≠ 0x3 then
    DecodeResult.abortLength
  else if crc8 (extractBytes r 7 7) 7 0x31 0 ≠ 0 then DecodeResult.failMic
  else DecodeResult.record (alectoRainData "Alecto-WS1200v1" (extractBytes r 7 7))

/-- `data_make` of `alecto_ws1200v2_dcf_callback` (radio clock record). -/
def alectoDcfMakeData (b : List Nat) : SensorData :=
  [("model", FieldValue.str "Alecto-WS1200v2"),
   ("id", FieldValue.int (b.getD 1 0)),
   ("battery_ok", FieldValue.int (if b.getD 2 0 >>> 7 &&& 0x1 = 0 then 1 else 0)),
   ("radio_clock", FieldValue.str
     (hex4 (b.getD 4 0 + 0x2000) ++ "-" ++ hex2 (b.getD 5 0) ++ "-" ++
      hex2 (b.getD 6 0) ++ "T" ++ hex2 (b.getD 7 0) ++ ":" ++
      hex2 (b.getD 8 0) ++ ":" ++ hex2 (b.getD 9 0))),
   ("mic", FieldValue.str "CRC")]

/-- `alecto_ws1200v2_dcf_callback`: 95-bit row, header byte `0x52`, CRC-8
over 10 bytes zero, byte sum over 10 bytes against byte 10. -/
def alecto_ws1200v2_dcf_callback (r : BitRow) : DecodeResult :=
  if r.len ≠ 95 ∨ rowByte r 0 >>> 1 ≠ 0x7F ∨ rowByte r 1 >>> 1 ≠ 0x52 then
    DecodeResult.abortLength
  else if crc8 (extractBytes r 7 11) 10 0x31 0 ≠ 0 then DecodeResult.failMic
  else if add_bytes (extractBytes r 7 11) 10 % 256 ≠
      (extractBytes r 7 11).getD 10 0 then DecodeResult.failMic
  else DecodeResult.record (alectoDcfMakeData (extractBytes r 7 11))

/-- `alecto_ws1200v2_callback`: 95-bit row with type nibble 3, else the DCF77
sub-variant; CRC-8 over 7 bytes zero, byte sum over 7 bytes against byte 7. -/
def alecto_ws1200v2_callback (r : BitRow) : DecodeResult :=
  if r.len ≠ 95 ∨ rowByte r 0 >>> 1 ≠ 0x7F ∨ rowByte r 1 >>> 5 ≠ 0x3 then
    alecto_ws1200v2_dcf_callback r
  else if crc8 (extractBytes r 7 11) 7 0x31 0 ≠ 0 then DecodeResult.failMic
  else if add_bytes (extractBytes r 7 11) 7 % 256 ≠
      (extractBytes r 7 11).getD 7 0 then DecodeResult.failMic
  else DecodeResult.record (alectoRainData "Alecto-WS1200v2" (extractBytes r 7 11))

/-- `fineoffset_WH0530_callback`: delegates 63-bit rows to Alecto v1 and
95-bit rows to Alecto v2, accepts 71-bit rows with the `0x7F` preamble and
type nibble 3, checks CRC-8 over 7 bytes and the truncated byte sum. -/
def fineoffset_WH0530_callback (r : BitRow) : DecodeResult :=
  if r.len = 63 then alecto_ws1200v1_callback r
  else if r.len = 95 then alecto_ws1200v2_callback r
  else if r.len ≠ 71 then DecodeResult.abortLength
  else if rowByte r 0 >>> 1 ≠ 0x7F ∨ rowByte r 1 >>> 5 ≠ 0x3 then
    DecodeResult.abortEarly
  else if crc8 (extractBytes r 7 8) 7 0x31 0 ≠ 0 ∨
      add_bytes (extractBytes r 7 8) 7 % 256 ≠ (extractBytes r 7 8).getD 7 0 then
    DecodeResult.failMic
  else DecodeResult.record (alectoRainData "Fineoffset-WH0530" (extractBytes r 7 8))

/-- `output_fields` (WH2 family device registration). -/
def output_fields : List String := ["model", "id", "temperature_C", "humidity", "mic"]

/-- `output_fields_WH25` (WH25 umbrella device registration). -/
def output_fields_WH25 : List String :=
  ["model", "id", "battery_ok", "temperature_C", "humidity", "pressure_hPa",
   "wind_dir_deg", "wind_avg_m_s", "wind_max_m_s", "rain_mm", "uv", "uvi",
   "light_lux", "pm2_5_ug_m3", "estimated_pm10_0_ug_m3", "mic"]

/-- `output_fields_WH51`. -/
def output_fields_WH51 : List String :=
  ["model", "id", "battery_ok", "battery_mV", "moisture", "boost", "ad_raw", "mic"]

/-- `output_fields_WH0530`. -/
def output_fields_WH0530 : List String :=
  ["model", "id", "battery_ok", "temperature_C", "rain_mm", "radio_clock", "mic"]

/-- The four registered devices (`r_device` definitions at the end of the
file), each with its `decode_fn` entry point. -/
inductive DeviceEntry where
  | wh2
  | wh25
  | wh51
  | wh0530
deriving DecidableEq

/-- Dispatch to the registered `decode_fn`. -/
def entryDecode : DeviceEntry → BitRow → DecodeResult
  | DeviceEntry.wh2, r => fineoffset_WH2_callback r
  | DeviceEntry.wh25, r => fineoffset_WH25_callback r
  | DeviceEntry.wh51, r => fineoffset_WH51_callback r
  | DeviceEntry.wh0530, r => fineoffset_WH0530_callback r

/-! ### Concrete fixture rows -/

section ConcreteEvaluation

attribute [local semireducible] Rat.mul Rat.inv Rat.add Rat.sub

/-- A valid 48-bit WH2 row: `FF 4A 12 34 55 69` (type 4, id 0xA1,
temperature raw 0x234, humidity 0x55, CRC 0x69). -/
def w2Row : BitRow := mkRow [0xFF, 0x4A, 0x12, 0x34, 0x55, 0x69] 48

/-- The record decoded from `w2Row`. -/
def w2Fields : SensorData :=
  [("model", FieldValue.str "Fineoffset-WH2"),
   ("id", FieldValue.int 161),
   ("temperature_C", FieldValue.rat (282 / 5)),
   ("humidity", FieldValue.int 85),
   ("mic", FieldValue.str "CRC")]

/-- A valid 200-bit WH24/WH65B row: preamble `AA 2D D4`, then the 17-byte
frame `24 35 00 00 25 40 00 08 01 02 00 10 00 00 00 2D 06` and zero padding.
The trailing slack is 40 bits, so it classifies as WH65B. -/
def w24Row : BitRow :=
  mkRow [0xAA, 0x2D, 0xD4, 0x24, 0x35, 0x00, 0x00, 0x25, 0x40, 0x00, 0x08,
    0x01, 0x02, 0x00, 0x10, 0x00, 0x00, 0x00, 0x2D, 0x06] 200

/-- The record decoded from `w24Row` (gust raw 8, rain bytes `01 02`). -/
def w24Fields : SensorData :=
  [("model", FieldValue.str "Fineoffset-WH65B"),
   ("id", FieldValue.int 53),
   ("battery_ok", FieldValue.int 1),
   ("temperature_C", FieldValue.rat (-363 / 10)),
   ("humidity", FieldValue.int 64),
   ("wind_dir_deg", FieldValue.int 0),
   ("wind_avg_m_s", FieldValue.rat 0),
   ("wind_max_m_s", FieldValue.rat (102 / 25)),
   ("rain_mm", FieldValue.rat (16383 / 250)),
   ("uv", FieldValue.int 16),
   ("uvi", FieldValue.int 0),
   ("light_lux", FieldValue.rat 0),
   ("mic", FieldValue.str "CRC")]

/-- A valid 88-bit WH0290 row (reaches the particulate-matter decoder through
the WH25 umbrella, `bit_count < 160`): frame `07 AB 00 64 00 C8 F9 D7`. -/
def pmRow : BitRow :=
  mkRow [0xAA, 0x2D, 0xD4, 0x07, 0xAB, 0x00, 0x64, 0x00, 0xC8, 0xF9, 0xD7] 88

/-- The record decoded from `pmRow`. -/
def pmFields : SensorData :=
  [("model", FieldValue.str "Fineoffset-WH0290"),
   ("id", FieldValue.int 171),
   ("battery_ok", FieldValue.rat 0),
   ("pm2_5_ug_m3", FieldValue.int 10),
   ("estimated_pm10_0_ug_m3", FieldValue.int 20),
   ("family", FieldValue.int 7),
   ("unknown1", FieldValue.int 0),
   ("mic", FieldValue.str "CRC")]

/-- A 440-bit row in the classic-WH25 length window whose frame starts with
header byte `0x41` and carries valid WH0290 checksums:
frame `41 01 00 00 00 00 F2 34`. -/
def rowC10 : BitRow :=
  mkRow [0xAA, 0x2D, 0xD4, 0x41, 0x01, 0x00, 0x00, 0x00, 0x00, 0xF2, 0x34] 440

/-- The record decoded from `rowC10` (a WH0290 record, not a WH25 one). -/
def rowC10Fields : SensorData :=
  [("model", FieldValue.str "Fineoffset-WH0290"),
   ("id", FieldValue.int 1),
   ("battery_ok", FieldValue.rat 0),
   ("pm2_5_ug_m3", FieldValue.int 0),
   ("estimated_pm10_0_ug_m3", FieldValue.int 0),
   ("family", FieldValue.int 65),
   ("unknown1", FieldValue.int 0),
   ("mic", FieldValue.str "CRC")]

/-- A valid 176-bit WH32B row whose raw humidity byte is the `0xFF` sentinel:
frame `E1 23 45 FF 27 10 7F 00`. -/
def rowC5 : BitRow :=
  mkRow [0xAA, 0x2D, 0xD4, 0xE1, 0x23, 0x45, 0xFF, 0x27, 0x10, 0x7F, 0x00] 176

/-- The record decoded from `rowC5`: humidity 255 is emitted. -/
def rowC5Fields : SensorData :=
  [("model", FieldValue.str "Fineoffset-WH32B"),
   ("id", FieldValue.int 18),
   ("battery_ok", FieldValue.int 1),
   ("temperature_C", FieldValue.rat (437 / 10)),
   ("humidity", FieldValue.int 255),
   ("pressure_hPa", FieldValue.rat 1000),
   ("mic", FieldValue.str "CRC")]

/-- A valid 440-bit classic WH25 row: frame `E5 10 90 55 27 10 11 70`
(additive checksum `0x11`, nibble-swapped xor-sum `0x70`). -/
def wh25Row : BitRow :=
  mkRow [0xAA, 0x2D, 0xD4, 0xE5, 0x10, 0x90, 0x55, 0x27, 0x10, 0x11, 0x70] 440

/-- The record decoded from `wh25Row`. -/
def wh25RowFields : SensorData :=
  [("model", FieldValue.str "Fineoffset-WH25"),
   ("id", FieldValue.int 81),
   ("battery_ok", FieldValue.int 1),
   ("temperature_C", FieldValue.rat (-128 / 5)),
   ("humidity", FieldValue.int 85),
   ("pressure_hPa", FieldValue.rat 1000),
   ("mic", FieldValue.str "CRC")]

/-- A 48-bit all-zero row: WH2 length matches, first byte does not. -/
def zeroRow48 : BitRow := mkRow [] 48

theorem w2Row_decodes : entryDecode DeviceEntry.wh2 w2Row = DecodeResult.record w2Fields := by
  decide

theorem w24Row_decodes : entryDecode DeviceEntry.wh25 w24Row = DecodeResult.record w24Fields := by
  decide

/-! ### Claim theorems: classification and UV lookup -/

/-- Claim C2: for every bit row in the 190..215 window whose located preamble
ends at `off` with at least `17*8` bits remaining, the WH24/WH65B classifier
picks WH24 exactly when the trailing slack `bit_count - off - 17*8` is below
8 bits and `off < 61`, and WH65B in every other case. -/
theorem claim_C2_wh24_classification (r : BitRow) (n off : Nat)
    (hn : n = r.len) (h190 : 190 ≤ n) (h215 : n ≤ 215)
    (hoff : off = findPreamble r + 24) (hfit : off + 17 * 8 ≤ n) :
    wh24Classify n off = MODEL_WH24 ↔ (n - off - 17 * 8 < 8 ∧ off < 61) := by
  unfold wh24Classify MODEL_WH24 MODEL_WH65B
  split_ifs with h1 h2 <;> simp <;> omega

theorem claim_C2_witness :
    wh24Classify 200 24 = MODEL_WH24 ↔ (200 - 24 - 17 * 8 < 8 ∧ 24 < 61) :=
  claim_C2_wh24_classification w24Row 200 24 (by decide) (by norm_num)
    (by norm_num) (by decide) (by norm_num)

/-- Full behaviour of the `while` loop of the UV-index lookup, by induction
on the remaining fuel. -/
theorem uvIndexFrom_spec (raw : Nat) : ∀ fuel i, 13 ≤ i + fuel → i ≤ 13 →
    uvIndexFrom raw i fuel ≤ 13 ∧ i ≤ uvIndexFrom raw i fuel ∧
    (uvIndexFrom raw i fuel < 13 → raw ≤ uvi_upper.getD (uvIndexFrom raw i fuel) 0) ∧
    (∀ j, i ≤ j → j < uvIndexFrom raw i fuel → uvi_upper.getD j 0 < raw) := by
  intro fuel
  induction fuel with
  | zero =>
    intro i h1 h2
    have hi : i = 13 := by omega
    subst hi
    simp only [uvIndexFrom]
    exact ⟨le_rfl, le_rfl, fun h => absurd h (by omega), fun j hj1 hj2 => by omega⟩
  | succ fuel ih =>
    intro i h1 h2
    by_cases hi : i < 13
    · by_cases hlt : uvi_upper.getD i 0 < raw
      · have heq : uvIndexFrom raw i (fuel + 1) = uvIndexFrom raw (i + 1) fuel := by
          show (if i < 13 then
            (if uvi_upper.getD i 0 < raw then uvIndexFrom raw (i + 1) fuel else i)
            else i) = _
          rw [if_pos hi, if_pos hlt]
        rw [heq]
        obtain ⟨a, b, c, d⟩ := ih (i + 1) (by omega) (by omega)
        refine ⟨a, by omega, c, fun j hj1 hj2 => ?_⟩
        by_cases hji : j = i
        · subst hji; exact hlt
        · exact d j (by omega) hj2
      · have heq : uvIndexFrom raw i (fuel + 1) = i := by
          show (if i < 13 then
            (if uvi_upper.getD i 0 < raw then uvIndexFrom raw (i + 1) fuel else i)
            else i) = _
          rw [if_pos hi, if_neg hlt]
        rw [heq]
        exact ⟨by omega, le_rfl, fun _ => Nat.le_of_not_lt hlt,
          fun j hj1 hj2 => by omega⟩
    · have heq : uvIndexFrom raw i (fuel + 1) = i := by
        show (if i < 13 then
          (if uvi_upper.getD i 0 < raw then uvIndexFrom raw (i + 1) fuel else i)
          else i) = _
        rw [if_neg hi]
      rw [heq]
      exact ⟨by omega, le_rfl, fun h => absurd h hi, fun j hj1 hj2 => by omega⟩

/-- Claim C9: the emitted UV index is the smallest index `i` in `0..13` with
`i = 13` or `uv_raw ≤ uvi_upper[i]` (strict-less-than comparisons, so a raw
value equal to a threshold maps to that threshold's own index), and the
lookup is monotone with range `0..13`. -/
theorem claim_C9_uvi_lookup : ∀ raw : Nat,
    (uvIndex raw ≤ 13 ∧
     (uvIndex raw < 13 → raw ≤ uvi_upper.getD (uvIndex raw) 0) ∧
     (∀ j, j < uvIndex raw → uvi_upper.getD j 0 < raw)) ∧
    (∀ i, i < 13 → uvIndex (uvi_upper.getD i 0) = i) ∧
    (∀ raw2, raw ≤ raw2 → uvIndex raw ≤ uvIndex raw2) := by
  intro raw
  obtain ⟨a, -, c, d⟩ := uvIndexFrom_spec raw 13 0 (by omega) (by omega)
  rw [show uvIndexFrom raw 0 13 = uvIndex raw from rfl] at a c d
  refine ⟨⟨a, c, fun j hj => d j (Nat.zero_le j) hj⟩, by decide, ?_⟩
  intro raw2 h12
  by_contra hcon
  push_neg at hcon
  obtain ⟨a2, -, c2, d2⟩ := uvIndexFrom_spec raw2 13 0 (by omega) (by omega)
  rw [show uvIndexFrom raw2 0 13 = uvIndex raw2 from rfl] at a2 c2 d2
  have h1 : uvi_upper.getD (uvIndex raw2) 0 < raw :=
    d (uvIndex raw2) (Nat.zero_le _) (by omega)
  have h2 : raw2 ≤ uvi_upper.getD (uvIndex raw2) 0 := c2 (by omega)
  omega

theorem claim_C9_witness :
    432 ≤ uvi_upper.getD (uvIndex 432) 0 ∧ uvIndex (uvi_upper.getD 3 0) = 3 ∧
      uvIndex 432 ≤ uvIndex 433 :=
  ⟨(claim_C9_uvi_lookup 432).1.2.1 (by decide),
   (claim_C9_uvi_lookup 432).2.1 3 (by decide),
   (claim_C9_uvi_lookup 432).2.2 433 (by decide)⟩

/-! ### Claim theorems: header-mismatch outcomes -/

/-- Claim C8 counterexample: a 48-bit row whose first byte is not `0xFF`
makes the WH2-family decoder return AbortLength, not AbortEarly. -/
theorem claim_C8_counterexample :
    zeroRow48.len = 48 ∧ rowByte zeroRow48 0 ≠ 0xFF ∧
    fineoffset_WH2_callback zeroRow48 = DecodeResult.abortLength ∧
    DecodeResult.abortLength ≠ DecodeResult.abortEarly := by decide

/-- Claim C8 (amended): after a length match with a mismatched header, the
WH2-family decoder (47/48/49/55 bits) and the Alecto WS-1200 v1 decoder
(63 bits) return AbortLength — their header checks are fused into the length
dispatch — while the WH0530 decoder at 71 bits returns AbortEarly. -/
theorem claim_C8_amended (r : BitRow) :
    (r.len = 48 → rowByte r 0 ≠ 0xFF →
      fineoffset_WH2_callback r = DecodeResult.abortLength) ∧
    (r.len = 55 → rowByte r 0 ≠ 0xFE →
      fineoffset_WH2_callback r = DecodeResult.abortLength) ∧
    (r.len = 47 → rowByte r 0 ≠ 0xFE →
      fineoffset_WH2_callback r = DecodeResult.abortLength) ∧
    (r.len = 49 → rowByte r 0 ≠ 0xFF →
      fineoffset_WH2_callback r = DecodeResult.abortLength) ∧
    (r.len = 63 → (rowByte r 0 >>> 1 ≠ 0x7F ∨ rowByte r 1 >>> 5 ≠ 0x3) →
      alecto_ws1200v1_callback r = DecodeResult.abortLength) ∧
    (r.len = 71 → (rowByte r 0 >>> 1 ≠ 0x7F ∨ rowByte r 1 >>> 5 ≠ 0x3) →
      fineoffset_WH0530_callback r = DecodeResult.abortEarly) := by
  refine ⟨?_, ?_, ?_, ?_, ?_, ?_⟩
  · intro h1 h2
    unfold fineoffset_WH2_callback
    rw [if_neg (by simp [h1, h2]), if_neg (by simp [h1]), if_neg (by simp [h1]),
      if_neg (by simp [h1, h2])]
  · intro h1 h2
    unfold fineoffset_WH2_callback
    rw [if_neg (by simp [h1]), if_neg (by simp [h1, h2]), if_neg (by simp [h1]),
      if_neg (by simp [h1])]
  · intro h1 h2
    unfold fineoffset_WH2_callback
    rw [if_neg (by simp [h1]), if_neg (by simp [h1]), if_neg (by simp [h1, h2]),
      if_neg (by simp [h1])]
  · intro h1 h2
    unfold fineoffset_WH2_callback
    rw [if_neg (by simp [h1]), if_neg (by simp [h1]), if_neg (by simp [h1]),
      if_neg (by simp [h1, h2])]
  · intro h1 h2
    unfold alecto_ws1200v1_callback
    rw [if_pos (by rcases h2 with h | h
                   · exact Or.inr (Or.inl h)
                   · exact Or.inr (Or.inr h))]
  · intro h1 h2
    unfold fineoffset_WH0530_callback
    rw [if_neg (by omega), if_neg (by omega), if_neg (by simp [h1]), if_pos h2]

theorem claim_C8_witness : fineoffset_WH2_callback zeroRow48 = DecodeResult.abortLength :=
  (claim_C8_amended zeroRow48).1 (by decide) (by decide)

/-! ### Success-shape and record-membership helpers -/

theorem mem_ite_nil_iff {α : Type} (p : Prop) [Decidable p] (l : List α) (x : α) :
    (x ∈ if p then l else []) ↔ p ∧ x ∈ l := by
  split_ifs with h <;> simp [h]

theorem wh25Checks_success (ty : Nat) (b : List Nat) (fs : SensorData) :
    wh25Checks ty b = DecodeResult.record fs → fs = wh25MakeData ty b := by
  unfold wh25Checks
  split_ifs <;> intro h
  · exact h.elim
  · exact h.elim
  · injection h with h; exact h.symm

theorem wh0290_success (r : BitRow) (fs : SensorData) :
    fineoffset_WH0290_callback r = DecodeResult.record fs →
    fs = wh0290MakeData (extractBytes r (findPreamble r + 24) 8) := by
  unfold fineoffset_WH0290_callback
  split_ifs <;> intro h
  · exact h.elim
  · exact h.elim
  · injection h with h; exact h.symm

theorem wh24_success (r : BitRow) (fs : SensorData) :
    fineoffset_WH24_callback r = DecodeResult.record fs →
    fs = wh24MakeData (wh24Classify r.len (findPreamble r + 24))
      (extractBytes r (findPreamble r + 24) 17) := by
  unfold fineoffset_WH24_callback
  split_ifs <;> intro h
  · exact h.elim
  · exact h.elim
  · exact h.elim
  · exact h.elim
  · injection h with h; exact h.symm

theorem model25_not_wh0290 (b : List Nat) :
    ("model", FieldValue.str "Fineoffset-WH25") ∉ wh0290MakeData b := by
  simp [wh0290MakeData]

theorem model25_not_wh24 (ty : Nat) (b : List Nat) :
    ("model", FieldValue.str "Fineoffset-WH25") ∉ wh24MakeData ty b := by
  simp [wh24MakeData, mem_ite_nil_iff]
  split_ifs <;> simp

theorem model25_not_wh25MakeData (ty : Nat) (hty : ty ≠ 25) (b : List Nat) :
    ("model", FieldValue.str "Fineoffset-WH25") ∉ wh25MakeData ty b := by
  simp [wh25MakeData, mem_ite_nil_iff, hty]

theorem wh25Body_no25 (r : BitRow) (ty : Nat) (fs : SensorData) (hty : ty ≠ 25) :
    wh25Body r ty = DecodeResult.record fs →
    ("model", FieldValue.str "Fineoffset-WH25") ∉ fs := by
  unfold wh25Body
  split_ifs with h1 h2 h3 h4 <;> intro h
  · exact h.elim
  · rw [wh25Checks_success 31 _ fs h]
    exact model25_not_wh25MakeData 31 (by norm_num) _
  · rw [wh25Checks_success ty _ fs h]
    exact model25_not_wh25MakeData ty hty _
  · rw [wh0290_success r fs h]
    exact model25_not_wh0290 _
  · exact h.elim

/-! ### Claim theorem: WH25 umbrella routing -/

/-- Claim C3: the WH25 umbrella routes by length — `<160` to WH0290,
`160..189` tentatively WH32B, `190..439` to WH24/WH65B, `>510` WH32B — and
after extraction a type nibble `0xD` on a tentative WH32B corrects the model
to WH32, `0xE` confirms the tentative model, header byte `0x41` re-delegates
to WH0290, and anything else returns AbortEarly. -/
theorem claim_C3_wh25_routing (r : BitRow) :
    (r.len < 160 → fineoffset_WH25_callback r = fineoffset_WH0290_callback r) ∧
    (160 ≤ r.len → r.len < 190 → fineoffset_WH25_callback r = wh25Body r 32) ∧
    (190 ≤ r.len → r.len < 440 →
      fineoffset_WH25_callback r = fineoffset_WH24_callback r) ∧
    (510 < r.len → fineoffset_WH25_callback r = wh25Body r 32) ∧
    (∀ ty, findPreamble r + 24 + 8 * 8 ≤ r.len →
      ((ty = 32 → (extractBytes r (findPreamble r + 24) 8).getD 0 0 &&& 0xf0 = 0xd0 →
        wh25Body r ty = wh25Checks 31 (extractBytes r (findPreamble r + 24) 8)) ∧
       ((extractBytes r (findPreamble r + 24) 8).getD 0 0 &&& 0xf0 = 0xe0 →
        wh25Body r ty = wh25Checks ty (extractBytes r (findPreamble r + 24) 8)) ∧
       (¬(ty = 32 ∧ (extractBytes r (findPreamble r + 24) 8).getD 0 0 &&& 0xf0 = 0xd0) →
        (extractBytes r (findPreamble r + 24) 8).getD 0 0 &&& 0xf0 ≠ 0xe0 →
        (extractBytes r (findPreamble r + 24) 8).getD 0 0 = 0x41 →
        wh25Body r ty = fineoffset_WH0290_callback r) ∧
       (¬(ty = 32 ∧ (extractBytes r (findPreamble r + 24) 8).getD 0 0 &&& 0xf0 = 0xd0) →
        (extractBytes r (findPreamble r + 24) 8).getD 0 0 &&& 0xf0 ≠ 0xe0 →
        (extractBytes r (findPreamble r + 24) 8).getD 0 0 ≠ 0x41 →
        wh25Body r ty = DecodeResult.abortEarly))) ∧
    (∀ b, ("model", FieldValue.str "Fineoffset-WH32") ∈ wh25MakeData 31 b ∧
      ("model", FieldValue.str "Fineoffset-WH32B") ∈ wh25MakeData 32 b ∧
      ("model", FieldValue.str "Fineoffset-WH0290") ∈ wh0290MakeData b) := by
  refine ⟨?_, ?_, ?_, ?_, ?_, ?_⟩
  · intro h
    unfold fineoffset_WH25_callback
    rw [if_pos h]
  · intro h1 h2
    unfold fineoffset_WH25_callback
    rw [if_neg (by omega), if_pos h2]
  · intro h1 h2
    unfold fineoffset_WH25_callback
    rw [if_neg (by omega), if_neg (by omega), if_pos h2]
  · intro h
    unfold fineoffset_WH25_callback
    rw [if_neg (by omega), if_neg (by omega), if_neg (by omega), if_pos h]
  · intro ty hfit
    refine ⟨?_, ?_, ?_, ?_⟩
    · intro hty hD
      unfold wh25Body
      rw [if_neg (by omega), if_pos ⟨hty, hD⟩]
    · intro hE
      unfold wh25Body
      rw [if_neg (by omega), if_neg (by rintro ⟨-, hD⟩; rw [hE] at hD; norm_num at hD),
        if_pos hE]
    · intro hnD hnE h41
      unfold wh25Body
      rw [if_neg (by omega), if_neg hnD, if_neg hnE, if_pos h41]
    · intro hnD hnE hn41
      unfold wh25Body
      rw [if_neg (by omega), if_neg hnD, if_neg hnE, if_neg hn41]
  · intro b
    refine ⟨by simp [wh25MakeData], by simp [wh25MakeData], by simp [wh0290MakeData]⟩

theorem claim_C3_witness :
    fineoffset_WH25_callback pmRow = fineoffset_WH0290_callback pmRow :=
  (claim_C3_wh25_routing pmRow).1 (by decide)

/-! ### Claim theorems: humidity sentinel, wind scaling, rain endianness -/

/-- Claim C5 counterexample: a successfully decoded WH32B frame whose raw
humidity byte is the `0xFF` sentinel still carries the humidity field: the
WH25/WH32/WH32B decoder has no sentinel filter on humidity. -/
theorem claim_C5_counterexample :
    entryDecode DeviceEntry.wh25 rowC5 = DecodeResult.record rowC5Fields ∧
    (extractBytes rowC5 (findPreamble rowC5 + 24) 8).getD 3 0 = 0xFF ∧
    ("humidity", FieldValue.int 255) ∈ rowC5Fields := by decide

/-- Claim C5 (amended): the WH2 family and WH24/WH65B omit the humidity
field exactly when the raw byte is `0xFF` and otherwise emit the raw value;
the WH25/WH32/WH32B decoder always emits the raw humidity byte, `0xFF`
included. -/
theorem claim_C5_amended (m id hum : Nat) (t : ℚ) (ty : Nat) (b : List Nat) :
    (hum = 0xff → ∀ v, ("humidity", v) ∉ wh2DataMake m id t hum) ∧
    (hum ≠ 0xff → ("humidity", FieldValue.int (hum : ℤ)) ∈ wh2DataMake m id t hum) ∧
    (b.getD 5 0 = 0xff → ∀ v, ("humidity", v) ∉ wh24MakeData ty b) ∧
    (b.getD 5 0 ≠ 0xff →
      ("humidity", FieldValue.int (b.getD 5 0 : ℤ)) ∈ wh24MakeData ty b) ∧
    ("humidity", FieldValue.int (b.getD 3 0 : ℤ)) ∈ wh25MakeData ty b := by
  refine ⟨?_, ?_, ?_, ?_, ?_⟩
  · intro h v
    simp [wh2DataMake, mem_ite_nil_iff, h]
  · intro h
    simp [wh2DataMake, mem_ite_nil_iff, h]
  · intro h v
    simp only [List.getD_eq_getElem?_getD] at h
    simp [wh24MakeData, mem_ite_nil_iff, h]
  · intro h
    simp only [List.getD_eq_getElem?_getD] at h
    simp [wh24MakeData, mem_ite_nil_iff, h]
  · simp [wh25MakeData, mem_ite_nil_iff]

theorem claim_C5_witness :
    ("humidity", FieldValue.int 85) ∈ wh2DataMake MODEL_WH2 161 (282 / 5) 85 := by
  have h := (claim_C5_amended MODEL_WH2 161 85 (282 / 5) 25 []).2.1 (by norm_num)
  exact_mod_cast h

/-- Claim C6 counterexample: in the record of `w24Row` (a WH65B frame with
raw gust byte 8) the emitted gust is `8 * 0.51`, not the claimed
`8 * 0.125 * 0.51`. -/
theorem claim_C6_counterexample :
    entryDecode DeviceEntry.wh25 w24Row = DecodeResult.record w24Fields ∧
    (extractBytes w24Row (findPreamble w24Row + 24) 17).getD 7 0 = 8 ∧
    ("wind_max_m_s", FieldValue.rat ((8 : ℚ) * (1 / 8) * (51 / 100))) ∉ w24Fields ∧
    ("wind_max_m_s", FieldValue.rat ((8 : ℚ) * (51 / 100))) ∈ w24Fields := by decide

/-- Claim C6 (amended): the average wind speed is raw × 0.125 × factor
(1.12 for WH24, 0.51 otherwise), but the gust is the raw gust byte × factor
with no 0.125 step; sentinels 0x1FF (speed) and 0xFF (gust) omit the
fields. -/
theorem claim_C6_amended (ty : Nat) (b : List Nat) :
    (wh24_wind_speed_raw b ≠ 0x1ff →
      ("wind_avg_m_s", FieldValue.rat
        ((wh24_wind_speed_raw b : ℚ) * (1 / 8) * wind_speed_factor ty)) ∈
        wh24MakeData ty b) ∧
    (wh24_wind_speed_raw b = 0x1ff →
      ∀ v, ("wind_avg_m_s", v) ∉ wh24MakeData ty b) ∧
    (b.getD 7 0 ≠ 0xff →
      ("wind_max_m_s", FieldValue.rat ((b.getD 7 0 : ℚ) * wind_speed_factor ty)) ∈
        wh24MakeData ty b) ∧
    (b.getD 7 0 = 0xff → ∀ v, ("wind_max_m_s", v) ∉ wh24MakeData ty b) ∧
    wind_speed_factor MODEL_WH24 = 112 / 100 ∧
    wind_speed_factor MODEL_WH65B = 51 / 100 := by
  refine ⟨?_, ?_, ?_, ?_, by norm_num [wind_speed_factor], by norm_num [wind_speed_factor, MODEL_WH24, MODEL_WH65B]⟩
  · intro h
    simp [wh24MakeData, mem_ite_nil_iff, h]
  · intro h v
    simp [wh24MakeData, mem_ite_nil_iff, h]
  · intro h
    simp only [List.getD_eq_getElem?_getD] at h
    simp [wh24MakeData, mem_ite_nil_iff, h]
  · intro h v
    simp only [List.getD_eq_getElem?_getD] at h
    simp [wh24MakeData, mem_ite_nil_iff, h]

theorem claim_C6_witness :
    ("wind_max_m_s", FieldValue.rat ((8 : ℚ) * wind_speed_factor MODEL_WH65B)) ∈
      wh24MakeData MODEL_WH65B (extractBytes w24Row (findPreamble w24Row + 24) 17) :=
  (claim_C6_amended MODEL_WH65B
    (extractBytes w24Row (findPreamble w24Row + 24) 17)).2.2.1 (by decide)

/-- Claim C7 counterexample: the WH24/WH65B rain counter is assembled
big-endian (`b[8] << 8 | b[9]`): with rain bytes `01 02` the emitted value is
`258 × 0.254`, not the little-endian `513 × 0.254` the claim requires. -/
theorem claim_C7_counterexample :
    entryDecode DeviceEntry.wh25 w24Row = DecodeResult.record w24Fields ∧
    (extractBytes w24Row (findPreamble w24Row + 24) 17).getD 8 0 = 0x01 ∧
    (extractBytes w24Row (findPreamble w24Row + 24) 17).getD 9 0 = 0x02 ∧
    ("rain_mm", FieldValue.rat ((0x0201 : ℚ) * (254 / 1000))) ∉ w24Fields ∧
    ("rain_mm", FieldValue.rat ((0x0102 : ℚ) * (254 / 1000))) ∈ w24Fields := by decide

/-- Claim C7 (amended): rain is a 16-bit tip count times the bucket size
(0.3 mm for WH0530/Alecto and WH24, 0.254 mm for WH65B); the count is
little-endian (low byte `b[3]` first) in the PWM family but big-endian
(`b[8]` high, `b[9]` low) in WH24/WH65B. -/
theorem claim_C7_amended (ty : Nat) (b : List Nat) (m : String) :
    ("rain_mm", FieldValue.rat ((wh24_rainfall_raw b : ℚ) * rain_cup_count ty)) ∈
      wh24MakeData ty b ∧
    wh24_rainfall_raw b = b.getD 8 0 <<< 8 ||| b.getD 9 0 ∧
    rain_cup_count MODEL_WH24 = 3 / 10 ∧
    rain_cup_count MODEL_WH65B = 254 / 1000 ∧
    ("rain_mm", FieldValue.rat
      (((b.getD 4 0 <<< 8 ||| b.getD 3 0 : Nat) : ℚ) * (3 / 10))) ∈
      alectoRainData m b := by
  refine ⟨?_, rfl, by norm_num [rain_cup_count], by norm_num [rain_cup_count, MODEL_WH24, MODEL_WH65B], ?_⟩
  · simp [wh24MakeData, mem_ite_nil_iff]
  · simp [alectoRainData]

theorem claim_C7_witness :
    ("rain_mm", FieldValue.rat
      ((wh24_rainfall_raw (extractBytes w24Row (findPreamble w24Row + 24) 17) : ℚ) *
        rain_cup_count MODEL_WH65B)) ∈
      wh24MakeData MODEL_WH65B (extractBytes w24Row (findPreamble w24Row + 24) 17) :=
  (claim_C7_amended MODEL_WH65B
    (extractBytes w24Row (findPreamble w24Row + 24) 17) "x").1

/-! ### Claim theorem: declared output fields -/

/-- Claim C4: the code emits fields outside the declared set — the WH0290
path reached through the WH25 umbrella emits `family` and `unknown1`, which
are not in `output_fields_WH25`. -/
theorem claim_C4_undeclared_fields :
    entryDecode DeviceEntry.wh25 pmRow = DecodeResult.record pmFields ∧
    ("family", FieldValue.int 7) ∈ pmFields ∧
    "family" ∉ output_fields_WH25 ∧
    ("unknown1", FieldValue.int 0) ∈ pmFields ∧
    "unknown1" ∉ output_fields_WH25 := by decide

/-! ### Claim theorems: the classic WH25 length window -/

/-- Claim C10 counterexample: a row of 440 bits (inside the claimed classic
WH25 window) whose frame header byte is `0x41` re-delegates to WH0290 and
produces a successful record whose model is not `Fineoffset-WH25`. -/
theorem claim_C10_counterexample :
    440 ≤ rowC10.len ∧ rowC10.len ≤ 510 ∧
    entryDecode DeviceEntry.wh25 rowC10 = DecodeResult.record rowC10Fields ∧
    ("model", FieldValue.str "Fineoffset-WH25") ∉ rowC10Fields ∧
    ("model", FieldValue.str "Fineoffset-WH0290") ∈ rowC10Fields := by decide

/-- Claim C10 (amended): rows of 440..510 bits are treated as classic WH25
(the tentative type stays 25); under type nibble `0xE` both the additive
checksum in byte 6 and — only for this type — the nibble-swapped xor-sum in
byte 7 must match, any mismatch gives FailIntegrity, and a passing frame
yields the only records carrying model `Fineoffset-WH25`; a header byte of
`0x41` instead re-delegates to the WH0290 decoder. -/
theorem claim_C10_amended (r : BitRow) :
    (440 ≤ r.len → r.len ≤ 510 → fineoffset_WH25_callback r = wh25Body r 25) ∧
    (∀ b, add_bytes b 6 % 256 ≠ b.getD 6 0 →
      wh25Checks 25 b = DecodeResult.failMic) ∧
    (∀ b, add_bytes b 6 % 256 = b.getD 6 0 →
      nibSwap (xor_bytes b 6) ≠ b.getD 7 0 →
      wh25Checks 25 b = DecodeResult.failMic) ∧
    (∀ b, add_bytes b 6 % 256 = b.getD 6 0 →
      nibSwap (xor_bytes b 6) = b.getD 7 0 →
      wh25Checks 25 b = DecodeResult.record (wh25MakeData 25 b) ∧
      ("model", FieldValue.str "Fineoffset-WH25") ∈ wh25MakeData 25 b) ∧
    (∀ ty b, ty ≠ 25 → add_bytes b 6 % 256 = b.getD 6 0 →
      wh25Checks ty b = DecodeResult.record (wh25MakeData ty b)) ∧
    (∀ fs, fineoffset_WH25_callback r = DecodeResult.record fs →
      ("model", FieldValue.str "Fineoffset-WH25") ∈ fs →
      440 ≤ r.len ∧ r.len ≤ 510) ∧
    (440 ≤ r.len → r.len ≤ 510 → findPreamble r + 24 + 8 * 8 ≤ r.len →
      (extractBytes r (findPreamble r + 24) 8).getD 0 0 &&& 0xf0 ≠ 0xe0 →
      (extractBytes r (findPreamble r + 24) 8).getD 0 0 = 0x41 →
      fineoffset_WH25_callback r = fineoffset_WH0290_callback r) := by
  refine ⟨?_, ?_, ?_, ?_, ?_, ?_, ?_⟩
  · intro h1 h2
    unfold fineoffset_WH25_callback
    rw [if_neg (by omega), if_neg (by omega), if_neg (by omega), if_neg (by omega)]
  · intro b h
    unfold wh25Checks
    rw [if_pos h]
  · intro b h1 h2
    unfold wh25Checks
    rw [if_neg (by simp [h1]), if_pos ⟨rfl, h2⟩]
  · intro b h1 h2
    constructor
    · unfold wh25Checks
      rw [if_neg (by simp [h1]), if_neg (by simp [h2])]
    · simp [wh25MakeData]
  · intro ty b hty h1
    unfold wh25Checks
    rw [if_neg (by simp [h1]), if_neg (by rintro ⟨h, -⟩; exact hty h)]
  · intro fs hsucc hmem
    by_cases hwin : 440 ≤ r.len ∧ r.len ≤ 510
    · exact hwin
    · exfalso
      unfold fineoffset_WH25_callback at hsucc
      split_ifs at hsucc with h1 h2 h3 h4
      · rw [wh0290_success r fs hsucc] at hmem
        exact model25_not_wh0290 _ hmem
      · exact wh25Body_no25 r 32 fs (by norm_num) hsucc hmem
      · rw [wh24_success r fs hsucc] at hmem
        exact model25_not_wh24 _ _ hmem
      · exact wh25Body_no25 r 32 fs (by norm_num) hsucc hmem
      · omega
  · intro h1 h2 hfit hnE h41
    unfold fineoffset_WH25_callback
    rw [if_neg (by omega), if_neg (by omega), if_neg (by omega), if_neg (by omega)]
    unfold wh25Body
    rw [if_neg (by omega), if_neg (by rintro ⟨h, -⟩; norm_num at h),
      if_neg hnE, if_pos h41]

theorem claim_C10_witness :
    fineoffset_WH25_callback wh25Row = wh25Body wh25Row 25 ∧
    wh25Checks 25 (extractBytes wh25Row (findPreamble wh25Row + 24) 8) =
      DecodeResult.record (wh25MakeData 25
        (extractBytes wh25Row (findPreamble wh25Row + 24) 8)) :=
  ⟨(claim_C10_amended wh25Row).1 (by decide) (by decide),
   ((claim_C10_amended wh25Row).2.2.2.1
     (extractBytes wh25Row (findPreamble wh25Row + 24) 8)
     (by decide) (by decide)).1⟩

/-! ### Single-bit corruption: frame and header transport lemmas -/

theorem extractBytes_getD (r : BitRow) (off nB j : Nat) (hj : j < nB) :
    (extractBytes r off nB).getD j 0 = byteFromBits r (off + 8 * j) := by
  simp [extractBytes, List.getD_eq_getElem?_getD, List.getElem?_map,
    List.getElem?_range, hj]

/-- Flipping row bit `off + (8*j + k)` turns the extracted frame into the
same frame with `2^(7-k)` xored into byte `j`. -/
theorem extractBytes_flip (r : BitRow) (off nB j k : Nat) (hk : k < 8)
    (hj : j < nB) :
    extractBytes (flipBit r (off + (8 * j + k))) off nB =
      (extractBytes r off nB).set j
        ((extractBytes r off nB).getD j 0 ^^^ 2 ^ (7 - k)) := by
  rw [extractBytes_getD r off nB j hj]
  apply List.ext_getElem
  · simp [extractBytes]
  · intro i hi1 hi2
    have hi : i < nB := by simpa [extractBytes] using hi1
    rw [List.getElem_set]
    simp only [extractBytes, List.getElem_map, List.getElem_range]
    split_ifs with hij
    · rw [← hij]
      have h2 : off + (8 * j + k) = (off + 8 * j) + k := by omega
      rw [h2, byteFromBits_flipBit_eq r (off + 8 * j) k hk]
    · apply byteFromBits_flipBit_ne
      rcases Nat.lt_or_ge i j with h | h
      · right; omega
      · left; omega

/-- Flipping a bit at or after the frame start leaves the preamble search
result unchanged, provided the frame fits behind the first match. -/
theorem findPreamble_flip_stable (r : BitRow) (L f : Nat) (hL : 0 < L)
    (hblock : findPreamble r + 24 + 8 * L ≤ r.len)
    (hf : findPreamble r + 24 ≤ f) :
    findPreamble (flipBit r f) = findPreamble r := by
  obtain ⟨hm, hmin⟩ := findPreamble_match r L hL hblock
  exact findPreamble_flipBit r f _ hm hmin (by omega)

/-- A flipped bit below `pos` or in a later byte leaves `rowByte` alone. -/
theorem rowByte_flipBit_ne (r : BitRow) (f k : Nat)
    (h : f < 8 * k ∨ 8 * k + 8 ≤ f) :
    rowByte (flipBit r f) k = rowByte r k :=
  byteFromBits_flipBit_ne r f (8 * k) h

theorem and80_xor_low : ∀ x, x < 256 → ∀ m, m < 7 →
    (x ^^^ 2 ^ m) &&& 0x80 = x &&& 0x80 := by decide

theorem andf0_xor_low : ∀ x, x < 256 → ∀ m, m < 4 →
    (x ^^^ 2 ^ m) &&& 0xf0 = x &&& 0xf0 := by decide

theorem nibbleE_flip : ∀ m, 4 ≤ m → m < 8 → ∀ x, x < 256 → x &&& 0xf0 = 0xe0 →
    ((x ^^^ 2 ^ m) &&& 0xf0 ≠ 0xd0 ∧ (x ^^^ 2 ^ m) &&& 0xf0 ≠ 0xe0 ∧
      x ^^^ 2 ^ m ≠ 0x41) := by decide

theorem nibbleD_flip : ∀ m, 4 ≤ m → m < 8 → ∀ x, x < 256 → x &&& 0xf0 = 0xd0 →
    ((x ^^^ 2 ^ m) &&& 0xf0 ≠ 0xd0 ∧ (x ^^^ 2 ^ m) &&& 0xf0 ≠ 0xe0 ∧
      x ^^^ 2 ^ m ≠ 0x41) := by decide

theorem byte41_flip : ∀ m, m < 8 →
    ((0x41 ^^^ 2 ^ m) &&& 0xf0 ≠ 0xd0 ∧ (0x41 ^^^ 2 ^ m) &&& 0xf0 ≠ 0xe0 ∧
      0x41 ^^^ 2 ^ m ≠ 0x41) := by decide

theorem shr1_xor_one : ∀ x, x < 256 → (x ^^^ 1) >>> 1 = x >>> 1 := by decide

theorem shr5_xor_low : ∀ x, x < 256 → ∀ m, m < 5 →
    (x ^^^ 2 ^ m) >>> 5 = x >>> 5 := by decide

theorem shr5_xor_high : ∀ x, x < 256 → ∀ m, 5 ≤ m → m < 8 →
    (x ^^^ 2 ^ m) >>> 5 ≠ x >>> 5 := by decide

theorem shr1_xor_high : ∀ x, x < 256 → ∀ m, 1 ≤ m → m < 8 →
    (x ^^^ 2 ^ m) >>> 1 ≠ x >>> 1 := by decide

theorem v2_flip_not_dcf : ∀ x, x < 256 → ∀ m, 5 ≤ m → m < 8 → x >>> 5 = 0x3 →
    (x ^^^ 2 ^ m) >>> 1 ≠ 0x52 := by decide

theorem dcf_not_v2 : ∀ x, x < 256 → x >>> 1 = 0x52 → x >>> 5 ≠ 0x3 := by decide

theorem dcf_flip_not_v2 : ∀ x, x < 256 → ∀ m, 1 ≤ m → m < 8 → x >>> 1 = 0x52 →
    (x ^^^ 2 ^ m) >>> 5 ≠ 0x3 := by decide

/-- Flipping any bit of the checksum-covered payload `b[0..5]` of a
successfully decoded WH0290 frame makes the re-run fail the MIC check. -/
theorem wh0290_flip (r : BitRow) (f : Nat) (fs : SensorData)
    (hsucc : fineoffset_WH0290_callback r = DecodeResult.record fs)
    (hf1 : findPreamble r + 24 ≤ f) (hf2 : f < findPreamble r + 24 + 6 * 8) :
    fineoffset_WH0290_callback (flipBit r f) = DecodeResult.failMic := by
  unfold fineoffset_WH0290_callback at hsucc
  split_ifs at hsucc with hlen hchk
  push_neg at hchk
  obtain ⟨hcrc, hsum⟩ := hchk
  have hfit : findPreamble r + 24 + 8 * 8 ≤ r.len := by omega
  have hstab : findPreamble (flipBit r f) = findPreamble r :=
    findPreamble_flip_stable r 8 f (by norm_num) hfit hf1
  have hk : (f - (findPreamble r + 24)) % 8 < 8 := Nat.mod_lt _ (by norm_num)
  have hj : (f - (findPreamble r + 24)) / 8 < 6 := by omega
  have hfeq : f = (findPreamble r + 24) +
      (8 * ((f - (findPreamble r + 24)) / 8) + (f - (findPreamble r + 24)) % 8) := by
    omega
  have hflip : extractBytes (flipBit r f) (findPreamble r + 24) 8 =
      (extractBytes r (findPreamble r + 24) 8).set ((f - (findPreamble r + 24)) / 8)
        ((extractBytes r (findPreamble r + 24) 8).getD
            ((f - (findPreamble r + 24)) / 8) 0 ^^^
          2 ^ (7 - (f - (findPreamble r + 24)) % 8)) := by
    conv_lhs => rw [hfeq]
    exact extractBytes_flip r (findPreamble r + 24) 8 _ _ hk (by omega)
  have hblt : ∀ x ∈ extractBytes r (findPreamble r + 24) 8, x < 256 :=
    extractBytes_lt r (findPreamble r + 24) 8
  have hbl : (extractBytes r (findPreamble r + 24) 8).length = 8 :=
    extractBytes_length r (findPreamble r + 24) 8
  have hsum' : add_bytes ((extractBytes r (findPreamble r + 24) 8).set
        ((f - (findPreamble r + 24)) / 8)
        ((extractBytes r (findPreamble r + 24) 8).getD
            ((f - (findPreamble r + 24)) / 8) 0 ^^^
          2 ^ (7 - (f - (findPreamble r + 24)) % 8))) 7 % 256 ≠
      add_bytes (extractBytes r (findPreamble r + 24) 8) 7 % 256 :=
    add_bytes_set_ne _ 7 _ _ hblt (by omega) (by omega) (by omega) (by omega)
  have hb7 : ((extractBytes r (findPreamble r + 24) 8).set
        ((f - (findPreamble r + 24)) / 8)
        ((extractBytes r (findPreamble r + 24) 8).getD
            ((f - (findPreamble r + 24)) / 8) 0 ^^^
          2 ^ (7 - (f - (findPreamble r + 24)) % 8))).getD 7 0 =
      (extractBytes r (findPreamble r + 24) 8).getD 7 0 :=
    getD_set_ne _ _ 7 _ (by omega)
  unfold fineoffset_WH0290_callback
  rw [flipBit_len, hstab, hflip]
  rw [if_neg (by omega)]
  rw [if_pos (Or.inr (by rw [hb7, ← hsum]; exact hsum'))]

/-- Flipping any bit of `b[0..14]` of a successfully decoded WH24/WH65B
frame: byte 0 breaks the sanity check, any other byte the byte-sum. -/
theorem wh24_flip (r : BitRow) (f : Nat) (fs : SensorData)
    (hsucc : fineoffset_WH24_callback r = DecodeResult.record fs)
    (hf1 : findPreamble r + 24 ≤ f) (hf2 : f < findPreamble r + 24 + 15 * 8) :
    fineoffset_WH24_callback (flipBit r f) = DecodeResult.failMic ∨
    fineoffset_WH24_callback (flipBit r f) = DecodeResult.failSanity := by
  unfold fineoffset_WH24_callback at hsucc
  split_ifs at hsucc with hlen hshort hsan hchk
  push_neg at hsan hchk
  obtain ⟨hcrc, hsum⟩ := hchk
  have hfit : findPreamble r + 24 + 8 * 17 ≤ r.len := by omega
  have hstab : findPreamble (flipBit r f) = findPreamble r :=
    findPreamble_flip_stable r 17 f (by norm_num) hfit hf1
  have hk : (f - (findPreamble r + 24)) % 8 < 8 := Nat.mod_lt _ (by norm_num)
  have hj : (f - (findPreamble r + 24)) / 8 < 15 := by omega
  have hfeq : f = (findPreamble r + 24) +
      (8 * ((f - (findPreamble r + 24)) / 8) + (f - (findPreamble r + 24)) % 8) := by
    omega
  have hflip : extractBytes (flipBit r f) (findPreamble r + 24) 17 =
      (extractBytes r (findPreamble r + 24) 17).set ((f - (findPreamble r + 24)) / 8)
        ((extractBytes r (findPreamble r + 24) 17).getD
            ((f - (findPreamble r + 24)) / 8) 0 ^^^
          2 ^ (7 - (f - (findPreamble r + 24)) % 8)) := by
    conv_lhs => rw [hfeq]
    exact extractBytes_flip r (findPreamble r + 24) 17 _ _ hk (by omega)
  have hblt : ∀ x ∈ extractBytes r (findPreamble r + 24) 17, x < 256 :=
    extractBytes_lt r (findPreamble r + 24) 17
  have hbl : (extractBytes r (findPreamble r + 24) 17).length = 17 :=
    extractBytes_length r (findPreamble r + 24) 17
  by_cases hj0 : (f - (findPreamble r + 24)) / 8 = 0
  · right
    unfold fineoffset_WH24_callback
    rw [flipBit_len, hstab, hflip, if_neg (by omega), if_neg (by omega)]
    rw [if_pos ?hcond]
    case hcond =>
      rw [hj0, getD_set_eq _ 0 _ (by omega), hsan]
      exact xor_pow_ne 0x24 (by norm_num) _ (by omega)
  · left
    unfold fineoffset_WH24_callback
    rw [flipBit_len, hstab, hflip, if_neg (by omega), if_neg (by omega)]
    rw [if_neg (by
      rw [getD_set_ne _ _ 0 _ (by omega)]
      exact fun hne => hne hsan)]
    rw [if_pos (Or.inr (by
      rw [getD_set_ne _ _ 16 _ (by omega), ← hsum]
      exact add_bytes_set_ne _ 16 _ _ hblt (by omega) (by omega) (by omega) (by omega)))]

/-- Corrupting one covered byte makes the WH25 additive checksum fail. -/
theorem wh25Checks_sum_flip (b : List Nat) (ty j m : Nat)
    (hb : ∀ x ∈ b, x < 256) (hlen : b.length = 8) (hj : j < 6) (hm : m < 8)
    (hsum : add_bytes b 6 % 256 = b.getD 6 0) :
    wh25Checks ty (b.set j (b.getD j 0 ^^^ 2 ^ m)) = DecodeResult.failMic := by
  unfold wh25Checks
  rw [if_pos (by
    rw [getD_set_ne _ _ 6 _ (by omega), ← hsum]
    exact add_bytes_set_ne b 6 j m hb hj (by omega) (by omega) hm)]

theorem wh25Checks_success_sum (ty : Nat) (b : List Nat) (fs : SensorData) :
    wh25Checks ty b = DecodeResult.record fs →
    add_bytes b 6 % 256 = b.getD 6 0 := by
  unfold wh25Checks
  split_ifs with h1 h2 <;> intro h
  · exact h.elim
  · exact h.elim
  · exact not_ne_iff.mp h1

/-- Flipping any bit of the checksum-covered payload `b[0..5]` of a frame
that succeeded through the WH25 message-type/checksum path: a type-nibble
flip aborts early, any other covered flip fails the MIC check. -/
theorem wh25Body_flip (r : BitRow) (ty : Nat) (f : Nat) (fs : SensorData)
    (hsucc : wh25Body r ty = DecodeResult.record fs)
    (hf1 : findPreamble r + 24 ≤ f) (hf2 : f < findPreamble r + 24 + 6 * 8) :
    wh25Body (flipBit r f) ty = DecodeResult.failMic ∨
    wh25Body (flipBit r f) ty = DecodeResult.abortEarly := by
  unfold wh25Body at hsucc
  split_ifs at hsucc with hlen hD hE h41
  case pos =>
    -- tentative WH32B with type nibble 0xD, decoded as WH32 (type 31)
    have hsum := wh25Checks_success_sum 31 _ fs hsucc
    have hfit : findPreamble r + 24 + 8 * 8 ≤ r.len := by omega
    have hstab : findPreamble (flipBit r f) = findPreamble r :=
      findPreamble_flip_stable r 8 f (by norm_num) hfit hf1
    have hk : (f - (findPreamble r + 24)) % 8 < 8 := Nat.mod_lt _ (by norm_num)
    have hj : (f - (findPreamble r + 24)) / 8 < 6 := by omega
    have hfeq : f = (findPreamble r + 24) +
        (8 * ((f - (findPreamble r + 24)) / 8) + (f - (findPreamble r + 24)) % 8) := by
      omega
    have hflip : extractBytes (flipBit r f) (findPreamble r + 24) 8 =
        (extractBytes r (findPreamble r + 24) 8).set
          ((f - (findPreamble r + 24)) / 8)
          ((extractBytes r (findPreamble r + 24) 8).getD
              ((f - (findPreamble r + 24)) / 8) 0 ^^^
            2 ^ (7 - (f - (findPreamble r + 24)) % 8)) := by
      conv_lhs => rw [hfeq]
      exact extractBytes_flip r (findPreamble r + 24) 8 _ _ hk (by omega)
    have hblt : ∀ x ∈ extractBytes r (findPreamble r + 24) 8, x < 256 :=
      extractBytes_lt r (findPreamble r + 24) 8
    have hbl : (extractBytes r (findPreamble r + 24) 8).length = 8 :=
      extractBytes_length r (findPreamble r + 24) 8
    have hb0lt : (extractBytes r (findPreamble r + 24) 8).getD 0 0 < 256 :=
      getD_lt_256 _ 0 hblt (by omega)
    by_cases hj0 : (f - (findPreamble r + 24)) / 8 = 0
    · by_cases hm4 : 4 ≤ 7 - (f - (findPreamble r + 24)) % 8
      · right
        obtain ⟨hnD, hnE, hn41⟩ := nibbleD_flip (7 - (f - (findPreamble r + 24)) % 8)
          hm4 (by omega) _ hb0lt hD.2
        unfold wh25Body
        rw [flipBit_len, hstab, hflip, if_neg (by omega)]
        rw [if_neg (by rintro ⟨-, hc⟩; rw [hj0, getD_set_eq _ 0 _ (by omega)] at hc
                       exact hnD hc)]
        rw [if_neg (by intro hc; rw [hj0, getD_set_eq _ 0 _ (by omega)] at hc
                       exact hnE hc)]
        rw [if_neg (by intro hc; rw [hj0, getD_set_eq _ 0 _ (by omega)] at hc
                       exact hn41 hc)]
      · left
        unfold wh25Body
        rw [flipBit_len, hstab, hflip, if_neg (by omega)]
        rw [if_pos ⟨hD.1, by
          rw [hj0, getD_set_eq _ 0 _ (by omega),
            andf0_xor_low _ hb0lt _ (by omega), hD.2]⟩]
        exact wh25Checks_sum_flip _ 31 _ _ hblt hbl (by omega) (by omega) hsum
    · left
      unfold wh25Body
      rw [flipBit_len, hstab, hflip, if_neg (by omega)]
      rw [if_pos ⟨hD.1, by rw [getD_set_ne _ _ 0 _ (by omega)]; exact hD.2⟩]
      exact wh25Checks_sum_flip _ 31 _ _ hblt hbl (by omega) (by omega) hsum
  case pos =>
    -- type nibble 0xE confirms the tentative type
    have hsum := wh25Checks_success_sum ty _ fs hsucc
    have hfit : findPreamble r + 24 + 8 * 8 ≤ r.len := by omega
    have hstab : findPreamble (flipBit r f) = findPreamble r :=
      findPreamble_flip_stable r 8 f (by norm_num) hfit hf1
    have hk : (f - (findPreamble r + 24)) % 8 < 8 := Nat.mod_lt _ (by norm_num)
    have hj : (f - (findPreamble r + 24)) / 8 < 6 := by omega
    have hfeq : f = (findPreamble r + 24) +
        (8 * ((f - (findPreamble r + 24)) / 8) + (f - (findPreamble r + 24)) % 8) := by
      omega
    have hflip : extractBytes (flipBit r f) (findPreamble r + 24) 8 =
        (extractBytes r (findPreamble r + 24) 8).set
          ((f - (findPreamble r + 24)) / 8)
          ((extractBytes r (findPreamble r + 24) 8).getD
              ((f - (findPreamble r + 24)) / 8) 0 ^^^
            2 ^ (7 - (f - (findPreamble r + 24)) % 8)) := by
      conv_lhs => rw [hfeq]
      exact extractBytes_flip r (findPreamble r + 24) 8 _ _ hk (by omega)
    have hblt : ∀ x ∈ extractBytes r (findPreamble r + 24) 8, x < 256 :=
      extractBytes_lt r (findPreamble r + 24) 8
    have hbl : (extractBytes r (findPreamble r + 24) 8).length = 8 :=
      extractBytes_length r (findPreamble r + 24) 8
    have hb0lt : (extractBytes r (findPreamble r + 24) 8).getD 0 0 < 256 :=
      getD_lt_256 _ 0 hblt (by omega)
    by_cases hj0 : (f - (findPreamble r + 24)) / 8 = 0
    · by_cases hm4 : 4 ≤ 7 - (f - (findPreamble r + 24)) % 8
      · right
        obtain ⟨hnD, hnE, hn41⟩ := nibbleE_flip (7 - (f - (findPreamble r + 24)) % 8)
          hm4 (by omega) _ hb0lt hE
        unfold wh25Body
        rw [flipBit_len, hstab, hflip, if_neg (by omega)]
        rw [if_neg (by rintro ⟨-, hc⟩; rw [hj0, getD_set_eq _ 0 _ (by omega)] at hc
                       exact hnD hc)]
        rw [if_neg (by intro hc; rw [hj0, getD_set_eq _ 0 _ (by omega)] at hc
                       exact hnE hc)]
        rw [if_neg (by intro hc; rw [hj0, getD_set_eq _ 0 _ (by omega)] at hc
                       exact hn41 hc)]
      · left
        have hnib : ((extractBytes r (findPreamble r + 24) 8).getD 0 0 ^^^
            2 ^ (7 - (f - (findPreamble r + 24)) % 8)) &&& 0xf0 = 0xe0 := by
          rw [andf0_xor_low _ hb0lt _ (by omega)]
          exact hE
        unfold wh25Body
        rw [flipBit_len, hstab, hflip, if_neg (by omega)]
        rw [if_neg (by rintro ⟨-, hc⟩
                       rw [hj0, getD_set_eq _ 0 _ (by omega), hnib] at hc
                       norm_num at hc)]
        rw [if_pos (by rw [hj0, getD_set_eq _ 0 _ (by omega)]; exact hnib)]
        exact wh25Checks_sum_flip _ ty _ _ hblt hbl (by omega) (by omega) hsum
    · left
      unfold wh25Body
      rw [flipBit_len, hstab, hflip, if_neg (by omega)]
      rw [if_neg (by rintro ⟨-, hc⟩
                     rw [getD_set_ne _ _ 0 _ (by omega), hE] at hc
                     norm_num at hc)]
      rw [if_pos (by rw [getD_set_ne _ _ 0 _ (by omega)]; exact hE)]
      exact wh25Checks_sum_flip _ ty _ _ hblt hbl (by omega) (by omega) hsum
  case pos =>
    -- header byte 0x41: the frame was re-delegated to the WH0290 decoder
    have hfit : findPreamble r + 24 + 8 * 8 ≤ r.len := by omega
    have hstab : findPreamble (flipBit r f) = findPreamble r :=
      findPreamble_flip_stable r 8 f (by norm_num) hfit hf1
    have hk : (f - (findPreamble r + 24)) % 8 < 8 := Nat.mod_lt _ (by norm_num)
    have hj : (f - (findPreamble r + 24)) / 8 < 6 := by omega
    have hfeq : f = (findPreamble r + 24) +
        (8 * ((f - (findPreamble r + 24)) / 8) + (f - (findPreamble r + 24)) % 8) := by
      omega
    have hflip : extractBytes (flipBit r f) (findPreamble r + 24) 8 =
        (extractBytes r (findPreamble r + 24) 8).set
          ((f - (findPreamble r + 24)) / 8)
          ((extractBytes r (findPreamble r + 24) 8).getD
              ((f - (findPreamble r + 24)) / 8) 0 ^^^
            2 ^ (7 - (f - (findPreamble r + 24)) % 8)) := by
      conv_lhs => rw [hfeq]
      exact extractBytes_flip r (findPreamble r + 24) 8 _ _ hk (by omega)
    by_cases hj0 : (f - (findPreamble r + 24)) / 8 = 0
    · right
      obtain ⟨hnD, hnE, hn41⟩ := byte41_flip (7 - (f - (findPreamble r + 24)) % 8)
        (by omega)
      unfold wh25Body
      rw [flipBit_len, hstab, hflip, if_neg (by omega)]
      rw [if_neg (by rintro ⟨-, hc⟩
                     rw [hj0, getD_set_eq _ 0 _ (by simp [extractBytes_length]), h41] at hc
                     exact hnD hc)]
      rw [if_neg (by intro hc
                     rw [hj0, getD_set_eq _ 0 _ (by simp [extractBytes_length]), h41] at hc
                     exact hnE hc)]
      rw [if_neg (by intro hc
                     rw [hj0, getD_set_eq _ 0 _ (by simp [extractBytes_length]), h41] at hc
                     exact hn41 hc)]
    · left
      unfold wh25Body
      rw [flipBit_len, hstab, hflip, if_neg (by omega)]
      rw [if_neg (by rintro ⟨-, hc⟩
                     rw [getD_set_ne _ _ 0 _ (by omega), h41] at hc
                     exact absurd hc (by decide))]
      rw [if_neg (by intro hc
                     rw [getD_set_ne _ _ 0 _ (by omega), h41] at hc
                     exact absurd hc (by decide))]
      rw [if_pos (by rw [getD_set_ne _ _ 0 _ (by omega)]; exact h41)]
      exact wh0290_flip r f fs hsucc hf1 hf2

/-- Flipping any bit of the first 13 bytes of a successfully decoded WH51
frame yields FailIntegrity, or AbortEarly when the family byte is hit. -/
theorem wh51_flip (r : BitRow) (f : Nat) (fs : SensorData)
    (hsucc : fineoffset_WH51_callback r = DecodeResult.record fs)
    (hf1 : findPreamble r + 24 ≤ f) (hf2 : f < findPreamble r + 24 + 13 * 8) :
    fineoffset_WH51_callback (flipBit r f) = DecodeResult.failMic ∨
    fineoffset_WH51_callback (flipBit r f) = DecodeResult.abortEarly := by
  unfold fineoffset_WH51_callback at hsucc
  split_ifs at hsucc with h1 h2 h3 h4 h5
  push_neg at h1 h2 h3 h4 h5
  have hfit : findPreamble r + 24 + 14 * 8 ≤ r.len := by omega
  have hstab : findPreamble (flipBit r f) = findPreamble r :=
    findPreamble_flip_stable r 14 f (by norm_num) hfit hf1
  have hk : (f - (findPreamble r + 24)) % 8 < 8 := Nat.mod_lt _ (by norm_num)
  have hj : (f - (findPreamble r + 24)) / 8 < 13 := by omega
  have hfeq : f = (findPreamble r + 24) +
      (8 * ((f - (findPreamble r + 24)) / 8) + (f - (findPreamble r + 24)) % 8) := by
    omega
  have hflip : extractBytes (flipBit r f) (findPreamble r + 24) 14 =
      (extractBytes r (findPreamble r + 24) 14).set
        ((f - (findPreamble r + 24)) / 8)
        ((extractBytes r (findPreamble r + 24) 14).getD
            ((f - (findPreamble r + 24)) / 8) 0 ^^^
          2 ^ (7 - (f - (findPreamble r + 24)) % 8)) := by
    conv_lhs => rw [hfeq]
    exact extractBytes_flip r (findPreamble r + 24) 14 _ _ hk (by omega)
  have hblt : ∀ x ∈ extractBytes r (findPreamble r + 24) 14, x < 256 :=
    extractBytes_lt r (findPreamble r + 24) 14
  have hbl : (extractBytes r (findPreamble r + 24) 14).length = 14 :=
    extractBytes_length r (findPreamble r + 24) 14
  by_cases hj0 : (f - (findPreamble r + 24)) / 8 = 0
  · right
    unfold fineoffset_WH51_callback
    rw [flipBit_len, hstab, hflip, if_neg (by omega), if_neg (by omega)]
    rw [if_pos (by rw [hj0, getD_set_eq _ 0 _ (by omega), h3]
                   exact xor_pow_ne 0x51 (by norm_num) _ (by omega))]
  · left
    unfold fineoffset_WH51_callback
    rw [flipBit_len, hstab, hflip, if_neg (by omega), if_neg (by omega)]
    rw [if_neg (fun hne => hne (by rw [getD_set_ne _ _ 0 _ (by omega)]; exact h3))]
    rw [if_pos (by
      rw [getD_set_ne _ _ 13 _ (by omega), ← h4]
      exact add_bytes_set_ne _ 13 _ _ hblt (by omega) (by omega) (by omega)
        (by omega))]

theorem wh2Common_success_crc (b : List Nat) (m n : Nat) (fs : SensorData)
    (h : wh2Common b m n = DecodeResult.record fs) :
    b.getD 4 0 = crc8 b 4 0x31 0 := by
  unfold wh2Common at h
  split_ifs at h with h1 h2
  exact not_ne_iff.mp h1

/-- Corrupting one CRC-covered byte makes the WH2-family CRC check fail. -/
theorem wh2Common_flip (b : List Nat) (m n j t : Nat)
    (hb : ∀ x ∈ b, x < 256) (hlen : 5 ≤ b.length) (hj : j < 4) (ht : t < 8)
    (hcrc : b.getD 4 0 = crc8 b 4 0x31 0) :
    wh2Common (b.set j (b.getD j 0 ^^^ 2 ^ t)) m n = DecodeResult.failMic := by
  unfold wh2Common
  rw [if_pos (by
    rw [getD_set_ne _ _ 4 _ (by omega), hcrc]
    exact Ne.symm (crc8_flip_ne b 4 j t hb hj (by omega) ht (by omega)))]

/-- Flipping any bit of the CRC-covered payload of a successfully decoded
WH2-family frame fails the MIC check, except that in the 55- and 47-bit
variants the first payload bit doubles as the last header bit, where a flip
falls out of the length/header dispatch instead. -/
theorem wh2_flip (r : BitRow) (f : Nat) (fs : SensorData)
    (hsucc : fineoffset_WH2_callback r = DecodeResult.record fs)
    (hf : (r.len = 48 ∧ 8 ≤ f ∧ f < 40) ∨ (r.len = 55 ∧ 7 ≤ f ∧ f < 39) ∨
          (r.len = 47 ∧ 7 ≤ f ∧ f < 39) ∨ (r.len = 49 ∧ 9 ≤ f ∧ f < 41)) :
    fineoffset_WH2_callback (flipBit r f) = DecodeResult.failMic ∨
    fineoffset_WH2_callback (flipBit r f) = DecodeResult.abortLength := by
  unfold fineoffset_WH2_callback at hsucc
  split_ifs at hsucc with hc1 hc2 hc3 hc4
  · -- 48-bit WH2: payload at bit offset 8
    left
    have hcrc := wh2Common_success_crc _ _ _ _ hsucc
    have hl := hc1.1
    have hreg : 8 ≤ f ∧ f < 40 := by
      rcases hf with ⟨-, h⟩ | ⟨h, -⟩ | ⟨h, -⟩ | ⟨h, -⟩ <;> omega
    have hk : (f - 8) % 8 < 8 := Nat.mod_lt _ (by norm_num)
    have hj : (f - 8) / 8 < 4 := by omega
    have hfeq : f = 8 + (8 * ((f - 8) / 8) + (f - 8) % 8) := by omega
    have hflip : extractBytes (flipBit r f) 8 5 =
        (extractBytes r 8 5).set ((f - 8) / 8)
          ((extractBytes r 8 5).getD ((f - 8) / 8) 0 ^^^ 2 ^ (7 - (f - 8) % 8)) := by
      conv_lhs => rw [hfeq]
      exact extractBytes_flip r 8 5 _ _ hk (by omega)
    unfold fineoffset_WH2_callback
    rw [flipBit_len]
    rw [if_pos ⟨hc1.1,
      by rw [rowByte_flipBit_ne r f 0 (Or.inr (by omega))]; exact hc1.2⟩]
    rw [hflip]
    exact wh2Common_flip _ MODEL_WH2 r.len _ _ (extractBytes_lt r 8 5)
      (extractBytes_length r 8 5).symm.le hj (by omega) hcrc
  · -- 55-bit WH2A: payload at bit offset 7, overlapping the header's last bit
    have hl := hc2.1
    have hreg : 7 ≤ f ∧ f < 39 := by
      rcases hf with ⟨h, -⟩ | ⟨-, h⟩ | ⟨h, -⟩ | ⟨h, -⟩ <;> omega
    by_cases hf7 : f = 7
    · right
      have hb0 : rowByte (flipBit r f) 0 = 0xFF := by
        subst hf7
        show byteFromBits (flipBit r (0 + 7)) 0 = 0xFF
        rw [byteFromBits_flipBit_eq r 0 7 (by norm_num),
          show byteFromBits r 0 = rowByte r 0 from rfl, hc2.2]
        decide
      unfold fineoffset_WH2_callback
      rw [flipBit_len]
      rw [if_neg (by rintro ⟨h48, -⟩; omega)]
      rw [if_neg (by rintro ⟨-, hb⟩; rw [hb0] at hb; norm_num at hb)]
      rw [if_neg (by rintro ⟨h47, -⟩; omega)]
      rw [if_neg (by rintro ⟨h49, -, -⟩; omega)]
    · left
      have hcrc := wh2Common_success_crc _ _ _ _ hsucc
      have hk : (f - 7) % 8 < 8 := Nat.mod_lt _ (by norm_num)
      have hj : (f - 7) / 8 < 4 := by omega
      have hfeq : f = 7 + (8 * ((f - 7) / 8) + (f - 7) % 8) := by omega
      have hflip : extractBytes (flipBit r f) 7 6 =
          (extractBytes r 7 6).set ((f - 7) / 8)
            ((extractBytes r 7 6).getD ((f - 7) / 8) 0 ^^^
              2 ^ (7 - (f - 7) % 8)) := by
        conv_lhs => rw [hfeq]
        exact extractBytes_flip r 7 6 _ _ hk (by omega)
      unfold fineoffset_WH2_callback
      rw [flipBit_len]
      rw [if_neg (by rintro ⟨h48, -⟩; omega)]
      rw [if_pos ⟨hc2.1,
        by rw [rowByte_flipBit_ne r f 0 (Or.inr (by omega))]; exact hc2.2⟩]
      rw [hflip]
      exact wh2Common_flip _ MODEL_WH2A r.len _ _ (extractBytes_lt r 7 6)
        (by rw [extractBytes_length]; norm_num) hj (by omega) hcrc
  · -- 47-bit WH5: payload at bit offset 7, overlapping the header's last bit
    have hl := hc3.1
    have hreg : 7 ≤ f ∧ f < 39 := by
      rcases hf with ⟨h, -⟩ | ⟨h, -⟩ | ⟨-, h⟩ | ⟨h, -⟩ <;> omega
    by_cases hf7 : f = 7
    · right
      have hb0 : rowByte (flipBit r f) 0 = 0xFF := by
        subst hf7
        show byteFromBits (flipBit r (0 + 7)) 0 = 0xFF
        rw [byteFromBits_flipBit_eq r 0 7 (by norm_num),
          show byteFromBits r 0 = rowByte r 0 from rfl, hc3.2]
        decide
      unfold fineoffset_WH2_callback
      rw [flipBit_len]
      rw [if_neg (by rintro ⟨h48, -⟩; omega)]
      rw [if_neg (by rintro ⟨h55, -⟩; omega)]
      rw [if_neg (by rintro ⟨-, hb⟩; rw [hb0] at hb; norm_num at hb)]
      rw [if_neg (by rintro ⟨h49, -, -⟩; omega)]
    · left
      have hcrc := wh2Common_success_crc _ _ _ _ hsucc
      have hk : (f - 7) % 8 < 8 := Nat.mod_lt _ (by norm_num)
      have hj : (f - 7) / 8 < 4 := by omega
      have hfeq : f = 7 + (8 * ((f - 7) / 8) + (f - 7) % 8) := by omega
      have hflip : extractBytes (flipBit r f) 7 5 =
          (extractBytes r 7 5).set ((f - 7) / 8)
            ((extractBytes r 7 5).getD ((f - 7) / 8) 0 ^^^
              2 ^ (7 - (f - 7) % 8)) := by
        conv_lhs => rw [hfeq]
        exact extractBytes_flip r 7 5 _ _ hk (by omega)
      unfold fineoffset_WH2_callback
      rw [flipBit_len]
      rw [if_neg (by rintro ⟨h48, -⟩; omega)]
      rw [if_neg (by rintro ⟨h55, -⟩; omega)]
      rw [if_pos ⟨hc3.1,
        by rw [rowByte_flipBit_ne r f 0 (Or.inr (by omega))]; exact hc3.2⟩]
      rw [hflip]
      exact wh2Common_flip _ MODEL_WH5 r.len _ _ (extractBytes_lt r 7 5)
        (extractBytes_length r 7 5).symm.le hj (by omega) hcrc
  · -- 49-bit Telldus: payload at bit offset 9; bits 9..15 may hit header
    -- byte 1, but only its top bit (bit 8) is inspected
    left
    have hl := hc4.1
    have hreg : 9 ≤ f ∧ f < 41 := by
      rcases hf with ⟨h, -⟩ | ⟨h, -⟩ | ⟨h, -⟩ | ⟨-, h⟩ <;> omega
    have hcrc := wh2Common_success_crc _ _ _ _ hsucc
    have hb1 : rowByte (flipBit r f) 1 &&& 0x80 = 0x80 := by
      by_cases h16 : 16 ≤ f
      · rw [rowByte_flipBit_ne r f 1 (Or.inr (by omega))]; exact hc4.2.2
      · have hfeq8 : f = 8 + (f - 8) := by omega
        have hb : rowByte (flipBit r f) 1 =
            byteFromBits r 8 ^^^ 2 ^ (7 - (f - 8)) := by
          conv_lhs => rw [hfeq8]
          exact byteFromBits_flipBit_eq r 8 (f - 8) (by omega)
        rw [hb, and80_xor_low _ (byteFromBits_lt r 8) _ (by omega)]
        exact hc4.2.2
    have hk : (f - 9) % 8 < 8 := Nat.mod_lt _ (by norm_num)
    have hj : (f - 9) / 8 < 4 := by omega
    have hfeq : f = 9 + (8 * ((f - 9) / 8) + (f - 9) % 8) := by omega
    have hflip : extractBytes (flipBit r f) 9 5 =
        (extractBytes r 9 5).set ((f - 9) / 8)
          ((extractBytes r 9 5).getD ((f - 9) / 8) 0 ^^^ 2 ^ (7 - (f - 9) % 8)) := by
      conv_lhs => rw [hfeq]
      exact extractBytes_flip r 9 5 _ _ hk (by omega)
    unfold fineoffset_WH2_callback
    rw [flipBit_len]
    rw [if_neg (by rintro ⟨h48, -⟩; omega)]
    rw [if_neg (by rintro ⟨h55, -⟩; omega)]
    rw [if_neg (by rintro ⟨h47, -⟩; omega)]
    rw [if_pos ⟨hc4.1,
      by rw [rowByte_flipBit_ne r f 0 (Or.inr (by omega))]; exact hc4.2.1, hb1⟩]
    rw [hflip]
    exact wh2Common_flip _ MODEL_TP r.len _ _ (extractBytes_lt r 9 5)
      (extractBytes_length r 9 5).symm.le hj (by omega) hcrc

/-- A flip inside header byte 1 (bits 8..15) rewrites that byte by an xor. -/
theorem rowByte1_flip_mid (r : BitRow) (f : Nat) (h1 : 8 ≤ f) (h2 : f < 16) :
    rowByte (flipBit r f) 1 = byteFromBits r 8 ^^^ 2 ^ (7 - (f - 8)) := by
  conv_lhs => rw [show f = 8 + (f - 8) by omega]
  exact byteFromBits_flipBit_eq r 8 (f - 8) (by omega)

/-- The 7-bit ones preamble (byte 0 shifted right once) survives a flip of
bit 7 or of any later bit. -/
theorem rowByte0_shr1_pres (r : BitRow) (f : Nat) (h : 7 ≤ f) :
    rowByte (flipBit r f) 0 >>> 1 = rowByte r 0 >>> 1 := by
  by_cases h7 : f = 7
  · subst h7
    show byteFromBits (flipBit r (0 + 7)) 0 >>> 1 = _
    rw [byteFromBits_flipBit_eq r 0 7 (by norm_num),
      show (2 : Nat) ^ (7 - 7) = 1 by norm_num]
    exact shr1_xor_one _ (byteFromBits_lt r 0)
  · rw [rowByte_flipBit_ne r f 0 (Or.inr (by omega))]

/-- The type nibble (byte 1 shifted right five times) survives a flip
outside bits 8..10. -/
theorem rowByte1_shr5_pres (r : BitRow) (f : Nat)
    (h : f < 8 ∨ (11 ≤ f ∧ f < 16) ∨ 16 ≤ f) :
    rowByte (flipBit r f) 1 >>> 5 = rowByte r 1 >>> 5 := by
  rcases h with h7 | ⟨h1, h2⟩ | h16
  · rw [rowByte_flipBit_ne r f 1 (Or.inl (by omega))]
  · rw [rowByte1_flip_mid r f (by omega) h2]
    exact shr5_xor_low _ (byteFromBits_lt r 8) _ (by omega)
  · rw [rowByte_flipBit_ne r f 1 (Or.inr (by omega))]

/-- The DCF header (byte 1 shifted right once) survives a flip outside
bits 8..14. -/
theorem rowByte1_shr1_pres (r : BitRow) (f : Nat)
    (h : f < 8 ∨ f = 15 ∨ 16 ≤ f) :
    rowByte (flipBit r f) 1 >>> 1 = rowByte r 1 >>> 1 := by
  rcases h with h7 | h15 | h16
  · rw [rowByte_flipBit_ne r f 1 (Or.inl (by omega))]
  · subst h15
    rw [rowByte1_flip_mid r 15 (by omega) (by omega),
      show (2 : Nat) ^ (7 - (15 - 8)) = 1 by norm_num]
    exact shr1_xor_one _ (byteFromBits_lt r 8)
  · rw [rowByte_flipBit_ne r f 1 (Or.inr (by omega))]

/-- Flipping any bit of the CRC-covered portion of a successfully decoded
Alecto WS-1200 v1 frame fails the MIC check, or falls out of the fused
length/header guard when the type nibble is hit. -/
theorem alecto_v1_flip (r : BitRow) (f : Nat) (fs : SensorData)
    (hsucc : alecto_ws1200v1_callback r = DecodeResult.record fs)
    (hf1 : 7 ≤ f) (hf2 : f < 63) :
    alecto_ws1200v1_callback (flipBit r f) = DecodeResult.failMic ∨
    alecto_ws1200v1_callback (flipBit r f) = DecodeResult.abortLength := by
  unfold alecto_ws1200v1_callback at hsucc
  split_ifs at hsucc with hg hcrc
  push_neg at hg hcrc
  obtain ⟨hlen, hh0, hh1⟩ := hg
  by_cases hmid : 8 ≤ f ∧ f < 11
  · right
    unfold alecto_ws1200v1_callback
    rw [flipBit_len]
    rw [if_pos (Or.inr (Or.inr (by
      rw [rowByte1_flip_mid r f (by omega) (by omega)]
      intro hc
      exact shr5_xor_high _ (byteFromBits_lt r 8) _ (by omega) (by omega)
        (hc.trans hh1.symm))))]
  · left
    have hh0' := rowByte0_shr1_pres r f (by omega)
    have hh1' := rowByte1_shr5_pres r f (by omega)
    have hk : (f - 7) % 8 < 8 := Nat.mod_lt _ (by norm_num)
    have hj : (f - 7) / 8 < 7 := by omega
    have hfeq : f = 7 + (8 * ((f - 7) / 8) + (f - 7) % 8) := by omega
    have hflip : extractBytes (flipBit r f) 7 7 =
        (extractBytes r 7 7).set ((f - 7) / 8)
          ((extractBytes r 7 7).getD ((f - 7) / 8) 0 ^^^ 2 ^ (7 - (f - 7) % 8)) := by
      conv_lhs => rw [hfeq]
      exact extractBytes_flip r 7 7 _ _ hk (by omega)
    unfold alecto_ws1200v1_callback
    rw [flipBit_len]
    rw [if_neg (by
      push_neg
      exact ⟨hlen, by rw [hh0']; exact hh0, by rw [hh1']; exact hh1⟩)]
    rw [hflip]
    rw [if_pos (fun h0 =>
      crc8_flip_ne _ 7 _ _ (extractBytes_lt r 7 7) hj
        (extractBytes_length r 7 7).symm.le (by omega) (by omega)
        (h0.trans hcrc.symm))]

/-- Flipping any bit of the CRC-covered portion of a successfully decoded
Alecto WS-1200 v2 frame (rain message: bytes 0..6; DCF message: bytes 0..9)
fails the MIC check, or falls out of the fused length/header guards when a
header bit is hit. -/
theorem alecto_v2_flip (r : BitRow) (f : Nat) (fs : SensorData)
    (hsucc : alecto_ws1200v2_callback r = DecodeResult.record fs)
    (hf : (rowByte r 1 >>> 5 = 0x3 ∧ 7 ≤ f ∧ f < 63) ∨
          (rowByte r 1 >>> 5 ≠ 0x3 ∧ 7 ≤ f ∧ f < 87)) :
    alecto_ws1200v2_callback (flipBit r f) = DecodeResult.failMic ∨
    alecto_ws1200v2_callback (flipBit r f) = DecodeResult.abortLength := by
  unfold alecto_ws1200v2_callback at hsucc
  split_ifs at hsucc with hg hcrc hsum
  · -- the guard failed on the original row: DCF77 radio-clock sub-variant
    unfold alecto_ws1200v2_dcf_callback at hsucc
    split_ifs at hsucc with hg2 hcrc2 hsum2
    push_neg at hg2 hcrc2 hsum2
    obtain ⟨hlen, hh0, hh1d⟩ := hg2
    have hne3 : rowByte r 1 >>> 5 ≠ 0x3 := dcf_not_v2 _ (byteFromBits_lt r 8) hh1d
    obtain ⟨hf1, hf2⟩ : 7 ≤ f ∧ f < 87 := by
      rcases hf with ⟨h3, -⟩ | ⟨-, h⟩
      · exact absurd h3 hne3
      · exact h
    by_cases hmid : 8 ≤ f ∧ f < 15
    · right
      have hb1 := rowByte1_flip_mid r f (by omega) (by omega)
      unfold alecto_ws1200v2_callback
      rw [flipBit_len]
      rw [if_pos (Or.inr (Or.inr (by
        rw [hb1]
        intro hc
        exact dcf_flip_not_v2 _ (byteFromBits_lt r 8) _ (by omega) (by omega)
          hh1d hc)))]
      unfold alecto_ws1200v2_dcf_callback
      rw [flipBit_len]
      rw [if_pos (Or.inr (Or.inr (by
        rw [hb1]
        intro hc
        exact shr1_xor_high _ (byteFromBits_lt r 8) _ (by omega) (by omega)
          (hc.trans hh1d.symm))))]
    · left
      have hh0' := rowByte0_shr1_pres r f (by omega)
      have hh1d' := rowByte1_shr1_pres r f (by omega)
      have hv2' : rowByte (flipBit r f) 1 >>> 5 ≠ 0x3 := by
        rw [rowByte1_shr5_pres r f (by omega)]
        exact hne3
      have hk : (f - 7) % 8 < 8 := Nat.mod_lt _ (by norm_num)
      have hj : (f - 7) / 8 < 10 := by omega
      have hfeq : f = 7 + (8 * ((f - 7) / 8) + (f - 7) % 8) := by omega
      have hflip : extractBytes (flipBit r f) 7 11 =
          (extractBytes r 7 11).set ((f - 7) / 8)
            ((extractBytes r 7 11).getD ((f - 7) / 8) 0 ^^^
              2 ^ (7 - (f - 7) % 8)) := by
        conv_lhs => rw [hfeq]
        exact extractBytes_flip r 7 11 _ _ hk (by omega)
      unfold alecto_ws1200v2_callback
      rw [flipBit_len]
      rw [if_pos (Or.inr (Or.inr hv2'))]
      unfold alecto_ws1200v2_dcf_callback
      rw [flipBit_len]
      rw [if_neg (by
        push_neg
        exact ⟨hlen, by rw [hh0']; exact hh0, by rw [hh1d']; exact hh1d⟩)]
      rw [hflip]
      rw [if_pos (fun h0 =>
        crc8_flip_ne _ 10 _ _ (extractBytes_lt r 7 11) hj
          (by rw [extractBytes_length]; norm_num) (by omega) (by omega)
          (h0.trans hcrc2.symm))]
  · -- rain message
    push_neg at hg hcrc hsum
    obtain ⟨hlen, hh0, hh1⟩ := hg
    obtain ⟨hf1, hf2⟩ : 7 ≤ f ∧ f < 63 := by
      rcases hf with ⟨-, h⟩ | ⟨h3, -⟩
      · exact h
      · exact absurd hh1 h3
    by_cases hmid : 8 ≤ f ∧ f < 11
    · right
      have hb1 := rowByte1_flip_mid r f (by omega) (by omega)
      unfold alecto_ws1200v2_callback
      rw [flipBit_len]
      rw [if_pos (Or.inr (Or.inr (by
        rw [hb1]
        intro hc
        exact shr5_xor_high _ (byteFromBits_lt r 8) _ (by omega) (by omega)
          (hc.trans hh1.symm))))]
      unfold alecto_ws1200v2_dcf_callback
      rw [flipBit_len]
      rw [if_pos (Or.inr (Or.inr (by
        rw [hb1]
        intro hc
        exact v2_flip_not_dcf _ (byteFromBits_lt r 8) _ (by omega) (by omega)
          hh1 hc)))]
    · left
      have hh0' := rowByte0_shr1_pres r f (by omega)
      have hh1' := rowByte1_shr5_pres r f (by omega)
      have hk : (f - 7) % 8 < 8 := Nat.mod_lt _ (by norm_num)
      have hj : (f - 7) / 8 < 7 := by omega
      have hfeq : f = 7 + (8 * ((f - 7) / 8) + (f - 7) % 8) := by omega
      have hflip : extractBytes (flipBit r f) 7 11 =
          (extractBytes r 7 11).set ((f - 7) / 8)
            ((extractBytes r 7 11).getD ((f - 7) / 8) 0 ^^^
              2 ^ (7 - (f - 7) % 8)) := by
        conv_lhs => rw [hfeq]
        exact extractBytes_flip r 7 11 _ _ hk (by omega)
      unfold alecto_ws1200v2_callback
      rw [flipBit_len]
      rw [if_neg (by
        push_neg
        exact ⟨hlen, by rw [hh0']; exact hh0, by rw [hh1']; exact hh1⟩)]
      rw [hflip]
      rw [if_pos (fun h0 =>
        crc8_flip_ne _ 7 _ _ (extractBytes_lt r 7 11) hj
          (by rw [extractBytes_length]; norm_num) (by omega) (by omega)
          (h0.trans hcrc.symm))]

/-- Flipping any bit of the CRC-covered portion of a frame successfully
decoded by the WH0530 entry point (in any of its three length variants)
yields FailIntegrity, AbortEarly or AbortLength, never a different record. -/
theorem wh0530_flip (r : BitRow) (f : Nat) (fs : SensorData)
    (hsucc : fineoffset_WH0530_callback r = DecodeResult.record fs)
    (hf : (r.len = 63 ∧ 7 ≤ f ∧ f < 63) ∨ (r.len = 71 ∧ 7 ≤ f ∧ f < 63) ∨
          (r.len = 95 ∧ rowByte r 1 >>> 5 = 0x3 ∧ 7 ≤ f ∧ f < 63) ∨
          (r.len = 95 ∧ rowByte r 1 >>> 5 ≠ 0x3 ∧ 7 ≤ f ∧ f < 87)) :
    fineoffset_WH0530_callback (flipBit r f) = DecodeResult.failMic ∨
    fineoffset_WH0530_callback (flipBit r f) = DecodeResult.abortEarly ∨
    fineoffset_WH0530_callback (flipBit r f) = DecodeResult.abortLength := by
  unfold fineoffset_WH0530_callback at hsucc
  split_ifs at hsucc with h63 h95 h71 hhdr hchk
  · -- 63-bit rows delegate to Alecto WS-1200 v1
    unfold fineoffset_WH0530_callback
    rw [flipBit_len, if_pos h63]
    obtain ⟨hf1, hf2⟩ : 7 ≤ f ∧ f < 63 := by
      rcases hf with ⟨-, h⟩ | ⟨h, -⟩ | ⟨h, -⟩ | ⟨h, -⟩ <;> omega
    rcases alecto_v1_flip r f fs hsucc hf1 hf2 with h | h
    · exact Or.inl h
    · exact Or.inr (Or.inr h)
  · -- 95-bit rows delegate to Alecto WS-1200 v2
    unfold fineoffset_WH0530_callback
    rw [flipBit_len, if_neg h63, if_pos h95]
    have hfv2 : (rowByte r 1 >>> 5 = 0x3 ∧ 7 ≤ f ∧ f < 63) ∨
        (rowByte r 1 >>> 5 ≠ 0x3 ∧ 7 ≤ f ∧ f < 87) := by
      rcases hf with ⟨h, -⟩ | ⟨h, -⟩ | ⟨-, h⟩ | ⟨-, h⟩
      · exact absurd h h63
      · omega
      · exact Or.inl h
      · exact Or.inr h
    rcases alecto_v2_flip r f fs hsucc hfv2 with h | h
    · exact Or.inl h
    · exact Or.inr (Or.inr h)
  · -- 71-bit WH0530 proper
    push_neg at h71 hhdr hchk
    obtain ⟨hh0, hh1⟩ := hhdr
    obtain ⟨hcrc, hsum⟩ := hchk
    obtain ⟨hf1, hf2⟩ : 7 ≤ f ∧ f < 63 := by
      rcases hf with ⟨h, -⟩ | ⟨-, h⟩ | ⟨h, -⟩ | ⟨h, -⟩ <;> omega
    by_cases hmid : 8 ≤ f ∧ f < 11
    · right; left
      have hb1 := rowByte1_flip_mid r f (by omega) (by omega)
      unfold fineoffset_WH0530_callback
      rw [flipBit_len]
      rw [if_neg (by omega), if_neg (by omega), if_neg (by omega)]
      rw [if_pos (Or.inr (by
        rw [hb1]
        intro hc
        exact shr5_xor_high _ (byteFromBits_lt r 8) _ (by omega) (by omega)
          (hc.trans hh1.symm)))]
    · left
      have hh0' := rowByte0_shr1_pres r f (by omega)
      have hh1' := rowByte1_shr5_pres r f (by omega)
      have hk : (f - 7) % 8 < 8 := Nat.mod_lt _ (by norm_num)
      have hj : (f - 7) / 8 < 7 := by omega
      have hfeq : f = 7 + (8 * ((f - 7) / 8) + (f - 7) % 8) := by omega
      have hflip : extractBytes (flipBit r f) 7 8 =
          (extractBytes r 7 8).set ((f - 7) / 8)
            ((extractBytes r 7 8).getD ((f - 7) / 8) 0 ^^^
              2 ^ (7 - (f - 7) % 8)) := by
        conv_lhs => rw [hfeq]
        exact extractBytes_flip r 7 8 _ _ hk (by omega)
      unfold fineoffset_WH0530_callback
      rw [flipBit_len]
      rw [if_neg (by omega), if_neg (by omega), if_neg (by omega)]
      rw [if_neg (by
        push_neg
        exact ⟨by rw [hh0']; exact hh0, by rw [hh1']; exact hh1⟩)]
      rw [hflip]
      rw [if_pos (Or.inl (fun h0 =>
        crc8_flip_ne _ 7 _ _ (extractBytes_lt r 7 8) hj
          (by rw [extractBytes_length]; norm_num) (by omega) (by omega)
          (h0.trans hcrc.symm)))]

/-- The non-trailer portion of the extracted frame, per registered device:
the bits of the frame bytes covered by the variant's integrity checks,
excluding the trailing check byte(s) themselves and any trailing slack (for
the 55- and 47-bit WH2 variants the first payload bit coincides with the
last header bit and is included; for the 95-bit Alecto rows the covered
region depends on whether the rain or the DCF77 message type is present). -/
def nonTrailerBit : DeviceEntry → BitRow → Nat → Prop
  | DeviceEntry.wh2, r, f =>
      (r.len = 48 ∧ 8 ≤ f ∧ f < 40) ∨ (r.len = 55 ∧ 7 ≤ f ∧ f < 39) ∨
      (r.len = 47 ∧ 7 ≤ f ∧ f < 39) ∨ (r.len = 49 ∧ 9 ≤ f ∧ f < 41)
  | DeviceEntry.wh25, r, f =>
      (190 ≤ r.len ∧ r.len < 440 ∧ findPreamble r + 24 ≤ f ∧
        f < findPreamble r + 24 + 15 * 8) ∨
      ((r.len < 190 ∨ 440 ≤ r.len) ∧ findPreamble r + 24 ≤ f ∧
        f < findPreamble r + 24 + 6 * 8)
  | DeviceEntry.wh51, r, f =>
      findPreamble r + 24 ≤ f ∧ f < findPreamble r + 24 + 13 * 8
  | DeviceEntry.wh0530, r, f =>
      (r.len = 63 ∧ 7 ≤ f ∧ f < 63) ∨ (r.len = 71 ∧ 7 ≤ f ∧ f < 63) ∨
      (r.len = 95 ∧ rowByte r 1 >>> 5 = 0x3 ∧ 7 ≤ f ∧ f < 63) ∨
      (r.len = 95 ∧ rowByte r 1 >>> 5 ≠ 0x3 ∧ 7 ≤ f ∧ f < 87)

/-- C1 (counterexample): a 200-bit row decodes through the WH25 umbrella to
a WH65B record; flipping bit 24 — the first bit of the extracted frame,
squarely in the non-trailer portion — makes the re-run return FailSanity,
not the FailIntegrity the claim says is the only possible outcome. -/
theorem claim_C1_counterexample :
    entryDecode DeviceEntry.wh25 w24Row = DecodeResult.record w24Fields ∧
    nonTrailerBit DeviceEntry.wh25 w24Row 24 ∧
    entryDecode DeviceEntry.wh25 (flipBit w24Row 24) = DecodeResult.failSanity ∧
    entryDecode DeviceEntry.wh25 (flipBit w24Row 24) ≠ DecodeResult.failMic := by
  refine ⟨by decide, by simp only [nonTrailerBit]; decide, by decide, by decide⟩

/-- C1 (amended): flipping any single bit in the non-trailer portion of the
extracted frame of a row that decoded successfully never yields a successful
record: the re-run ends in FailIntegrity, FailSanity, AbortEarly or
AbortLength (sanity and header checks precede the integrity checks, so a
flip in a header byte surfaces as one of the abort/sanity codes instead of
FailIntegrity). -/
theorem claim_C1_amended (e : DeviceEntry) (r : BitRow) (f : Nat)
    (fs : SensorData) (hsucc : entryDecode e r = DecodeResult.record fs)
    (hf : nonTrailerBit e r f) :
    entryDecode e (flipBit r f) = DecodeResult.failMic ∨
    entryDecode e (flipBit r f) = DecodeResult.failSanity ∨
    entryDecode e (flipBit r f) = DecodeResult.abortEarly ∨
    entryDecode e (flipBit r f) = DecodeResult.abortLength := by
  cases e
  case wh2 =>
    simp only [nonTrailerBit] at hf
    simp only [entryDecode] at hsucc ⊢
    rcases wh2_flip r f fs hsucc hf with h | h
    · exact Or.inl h
    · exact Or.inr (Or.inr (Or.inr h))
  case wh25 =>
    simp only [nonTrailerBit] at hf
    simp only [entryDecode] at hsucc ⊢
    unfold fineoffset_WH25_callback at hsucc ⊢
    rw [flipBit_len]
    split_ifs at hsucc with h160 h190 h440 h510
    · rw [if_pos h160]
      obtain ⟨hr1, hr2⟩ : findPreamble r + 24 ≤ f ∧
          f < findPreamble r + 24 + 6 * 8 := by
        rcases hf with ⟨h, -, -, -⟩ | ⟨-, h1, h2⟩
        · omega
        · exact ⟨h1, h2⟩
      exact Or.inl (wh0290_flip r f fs hsucc hr1 hr2)
    · rw [if_neg h160, if_pos h190]
      obtain ⟨hr1, hr2⟩ : findPreamble r + 24 ≤ f ∧
          f < findPreamble r + 24 + 6 * 8 := by
        rcases hf with ⟨h, -, -, -⟩ | ⟨-, h1, h2⟩
        · omega
        · exact ⟨h1, h2⟩
      rcases wh25Body_flip r 32 f fs hsucc hr1 hr2 with h | h
      · exact Or.inl h
      · exact Or.inr (Or.inr (Or.inl h))
    · rw [if_neg h160, if_neg h190, if_pos h440]
      obtain ⟨hr1, hr2⟩ : findPreamble r + 24 ≤ f ∧
          f < findPreamble r + 24 + 15 * 8 := by
        rcases hf with ⟨-, -, h1, h2⟩ | ⟨hl, -, -⟩
        · exact ⟨h1, h2⟩
        · rcases hl with h | h <;> omega
      rcases wh24_flip r f fs hsucc hr1 hr2 with h | h
      · exact Or.inl h
      · exact Or.inr (Or.inl h)
    · rw [if_neg h160, if_neg h190, if_neg h440, if_pos h510]
      obtain ⟨hr1, hr2⟩ : findPreamble r + 24 ≤ f ∧
          f < findPreamble r + 24 + 6 * 8 := by
        rcases hf with ⟨-, h, -, -⟩ | ⟨-, h1, h2⟩
        · omega
        · exact ⟨h1, h2⟩
      rcases wh25Body_flip r 32 f fs hsucc hr1 hr2 with h | h
      · exact Or.inl h
      · exact Or.inr (Or.inr (Or.inl h))
    · rw [if_neg h160, if_neg h190, if_neg h440, if_neg h510]
      obtain ⟨hr1, hr2⟩ : findPreamble r + 24 ≤ f ∧
          f < findPreamble r + 24 + 6 * 8 := by
        rcases hf with ⟨-, h, -, -⟩ | ⟨-, h1, h2⟩
        · omega
        · exact ⟨h1, h2⟩
      rcases wh25Body_flip r 25 f fs hsucc hr1 hr2 with h | h
      · exact Or.inl h
      · exact Or.inr (Or.inr (Or.inl h))
  case wh51 =>
    simp only [nonTrailerBit] at hf
    simp only [entryDecode] at hsucc ⊢
    rcases wh51_flip r f fs hsucc hf.1 hf.2 with h | h
    · exact Or.inl h
    · exact Or.inr (Or.inr (Or.inl h))
  case wh0530 =>
    simp only [nonTrailerBit] at hf
    simp only [entryDecode] at hsucc ⊢
    rcases wh0530_flip r f fs hsucc hf with h | h | h
    · exact Or.inl h
    · exact Or.inr (Or.inr (Or.inl h))
    · exact Or.inr (Or.inr (Or.inr h))

/-- C1 (witness): the amended theorem at the concrete 48-bit WH2 row,
flipping the first payload bit. -/
theorem claim_C1_witness :
    entryDecode DeviceEntry.wh2 (flipBit w2Row 8) = DecodeResult.failMic ∨
    entryDecode DeviceEntry.wh2 (flipBit w2Row 8) = DecodeResult.failSanity ∨
    entryDecode DeviceEntry.wh2 (flipBit w2Row 8) = DecodeResult.abortEarly ∨
    entryDecode DeviceEntry.wh2 (flipBit w2Row 8) = DecodeResult.abortLength :=
  claim_C1_amended DeviceEntry.wh2 w2Row 8 w2Fields (by decide)
    (by simp only [nonTrailerBit]; decide)

end ConcreteEvaluation
